import Mathlib

/-!
# Porygon: the channel reconciliation loop of `main.go`

A shallow embedding of `saveMessageIDs`, `loadMessageIDs`, `gatherStats` and of the
loop that `main` starts, followed by theorems about them.

* A Go `map[string]string` is either the nil map or an association list with at
  most one pair per key. Reading the nil map finds nothing; assigning to it panics.
* A panic in the goroutine ends the process. A step of the loop therefore has an
  outcome: it is done, or it panicked, each with the state reached.
* The Discord session, the file system, the database and the live-data API are
  external. Each is an oracle: a function that, given everything that has
  happened so far (the list of events), answers the next call. A theorem that
  quantifies over the oracle holds for every behaviour of the outside world.
* The state of the loop carries the list of events so far; every call on the
  outside world adds one event, with the answer it got.
-/

namespace Porygon

/-! ## Go values -/

/-- A Go call that returns `(value, error)`: either the value or the error's text. -/
inductive Result (α : Type) where
  | ok (value : α)
  | err (text : String)
  deriving DecidableEq, Repr

/-- A Go map from strings that is not nil. -/
abbrev GoMap (α : Type) := List (String × α)

/-- The two-result lookup `v, ok = m[k]`, with `none` for `ok == false`. -/
def GoMap.get? {α : Type} : GoMap α → String → Option α
  | [], _ => none
  | (k, v) :: rest, key => if k = key then some v else GoMap.get? rest key

/-- The assignment `m[k] = v`. -/
def GoMap.set {α : Type} : GoMap α → String → α → GoMap α
  | [], key, val => [(key, val)]
  | (k, v) :: rest, key, val =>
    if k = key then (k, val) :: rest else (k, v) :: GoMap.set rest key val

/-- The type of `messageIDs`, `map[string]string` from channel id to message id: the nil
map, or a map made by `make` or by the decoder. -/
inductive MessageIDs where
  | nil
  | map (entries : GoMap String)
  deriving DecidableEq, Repr

/-- The two-result lookup `msgID, ok = messageIDs[channelID]`; the nil map has no entry. -/
def MessageIDs.get? : MessageIDs → String → Option String
  | MessageIDs.nil, _ => none
  | MessageIDs.map entries, key => entries.get? key

/-- The assignment `messageIDs[channelID] = id`: `none` on the nil map, where Go panics
with "assignment to entry in nil map". -/
def MessageIDs.set : MessageIDs → String → String → Option MessageIDs
  | MessageIDs.nil, _, _ => none
  | MessageIDs.map entries, key, val => some (MessageIDs.map (entries.set key val))

/-- The function `strings.HasPrefix` on the characters of a string. -/
def hasPrefix : List Char → List Char → Bool
  | _, [] => true
  | [], _ :: _ => false
  | c :: s, d :: p => c == d && hasPrefix s p

/-- The function `strings.Contains` on the characters of a string. -/
def containsChars : List Char → List Char → Bool
  | [], sub => hasPrefix [] sub
  | c :: s, sub => hasPrefix (c :: s) sub || containsChars s sub

/-- The function `strings.Contains`. -/
def stringsContains (s substr : String) : Bool :=
  containsChars s.toList substr.toList

/-! ## The Discord session -/

/-- One field of an embed, as `discord.GenerateFields` produces them. -/
structure EmbedField where
  Name : String
  Value : String
  Inline : Bool
  deriving DecidableEq, Repr

/-- The `discordgo.MessageEmbed` that the loop builds: title, fields, timestamp. -/
structure MessageEmbed where
  Title : String
  Fields : List EmbedField
  Timestamp : String
  deriving DecidableEq, Repr

/-- A `discordgo.Message`; the loop reads its `ID` only. -/
structure Message where
  ID : String
  deriving DecidableEq, Repr

/-! ## The state file -/

/-- A JSON value, as the decoder sees it; the members of an object are in file order. -/
inductive JSON where
  | null
  | bool (b : Bool)
  | number (literal : String)
  | string (s : String)
  | array (items : List JSON)
  | object (members : List (String × JSON))

/-- What a file holds, as far as `json.Decoder.Decode` can tell: a first JSON value, or
text from which no JSON value can be read (empty, truncated, not JSON). -/
inductive FileData where
  | value (v : JSON)
  | malformed

/-- The file system: file name to what the file holds. -/
abbrev FileSystem := GoMap FileData

/-! ## Events -/

/-- What the program did to the outside world, with the answer it got. -/
inductive Event where
  | edit (channelID msgID : String) (embed : MessageEmbed) (res : Result Message)
  | list (channelID : String) (limit : Int) (res : Result (List Message))
  | delete (channelID msgID : String) (err : Option String)
  | send (channelID : String) (embed : MessageEmbed) (res : Result Message)
  | save (filename : String) (data : MessageIDs) (err : Option String)
  | api (minIv maxIv : Int)
  | sleep (duration : Int)

/-- The session `dg`: what each call answers, given the events so far. -/
structure Session where
  ChannelMessageEditEmbed : List Event → String → String → MessageEmbed → Result Message
  ChannelMessages : List Event → String → Int → Result (List Message)
  ChannelMessageDelete : List Event → String → String → Option String
  ChannelMessageSendEmbed : List Event → String → MessageEmbed → Result Message

/-- How the operating system answers the file calls, given the events so far:
`os.Create` and `os.Open` fail with the given text or succeed; a failing `Encode`
leaves the given data in the file. -/
structure FileFaults where
  create : List Event → String → Option String
  openFile : List Event → String → Option String
  encode : List Event → String → Option (String × FileData)

/-! ## `saveMessageIDs` and `loadMessageIDs` -/

/-- Insert a pair into a list that is sorted by key, keeping it sorted. -/
def insertByKey {α : Type} (k : String) (v : α) : List (String × α) → List (String × α)
  | [] => [(k, v)]
  | (k1, v1) :: rest =>
    if k.toList ≤ k1.toList then (k, v) :: (k1, v1) :: rest
    else (k1, v1) :: insertByKey k v rest

/-- What `json.Encoder.Encode` writes for a `map[string]string`: `null` for the nil map,
otherwise one object, one member per key, the keys sorted. -/
def encodeMessageIDs : MessageIDs → JSON
  | MessageIDs.nil => JSON.null
  | MessageIDs.map entries =>
    JSON.object ((entries.foldr (fun kv acc => insertByKey kv.1 kv.2 acc) []).map
      (fun kv => (kv.1, JSON.string kv.2)))

/-- One member of a JSON object decoded into a `map[string]string`: the key is always
set; a string gives its text, `null` the empty string without error, any other value
the empty string and an `UnmarshalTypeError`. The second component is the error this
member adds, if any. -/
def decodeMember (m : GoMap String) (key : String) : JSON → GoMap String × Option String
  | JSON.string s => (m.set key s, none)
  | JSON.null => (m.set key "", none)
  | JSON.bool _ => (m.set key "", some "json: cannot unmarshal bool into Go value of type string")
  | JSON.number _ =>
    (m.set key "", some "json: cannot unmarshal number into Go value of type string")
  | JSON.array _ =>
    (m.set key "", some "json: cannot unmarshal array into Go value of type string")
  | JSON.object _ =>
    (m.set key "", some "json: cannot unmarshal object into Go value of type string")

/-- The members of a JSON object decoded one after the other; the error is the earliest. -/
def decodeMembers : GoMap String → List (String × JSON) → GoMap String × Option String
  | m, [] => (m, none)
  | m, (key, v) :: rest =>
    let r := decodeMember m key v
    let r2 := decodeMembers r.1 rest
    (r2.1, r.2.orElse (fun _ => r2.2))

/-- The entries a JSON object is decoded into: those of the map, and none for the nil
map, in place of which the decoder makes a map. -/
def MessageIDs.entriesOrMake : MessageIDs → GoMap String
  | MessageIDs.nil => []
  | MessageIDs.map entries => entries

/-- The call `json.NewDecoder(file).Decode(&messageIDs)`: the map after the call and
the error returned. Text that is not JSON leaves the map as it was; an object is
decoded member by member into the map; `null` sets the map to nil, without error; any
other value leaves the map as it was and is an `UnmarshalTypeError`. The texts stand
for the errors of the library; only whether there is one is used. -/
def decode (m : MessageIDs) : FileData → MessageIDs × Option String
  | FileData.malformed => (m, some "invalid character")
  | FileData.value (JSON.object members) =>
    let r := decodeMembers m.entriesOrMake members
    (MessageIDs.map r.1, r.2)
  | FileData.value JSON.null => (MessageIDs.nil, none)
  | FileData.value (JSON.bool _) =>
    (m, some "json: cannot unmarshal bool into Go value of type map[string]string")
  | FileData.value (JSON.number _) =>
    (m, some "json: cannot unmarshal number into Go value of type map[string]string")
  | FileData.value (JSON.string _) =>
    (m, some "json: cannot unmarshal string into Go value of type map[string]string")
  | FileData.value (JSON.array _) =>
    (m, some "json: cannot unmarshal array into Go value of type map[string]string")

/-- The function `saveMessageIDs` (main.go 22-36): the error returned and the file
system afterwards. `os.Create` truncates the file, `Encode` writes the map. -/
def saveMessageIDs (faults : FileFaults) (events : List Event) (files : FileSystem)
    (filename : String) (data : MessageIDs) : Option String × FileSystem :=
  match faults.create events filename with
  | some err => (some err, files)
  | none =>
    let files1 := files.set filename FileData.malformed
    match faults.encode events filename with
    | some (err, left) => (some err, files1.set filename left)
    | none => (none, files1.set filename (FileData.value (encodeMessageIDs data)))

/-- The function `loadMessageIDs` (main.go 38-62): the map returned and the file system
afterwards. `make(map[string]string)` is the map with no entry, which is not nil. The
results of both `Encode` and `Decode` are dropped, as in the source. -/
def loadMessageIDs (faults : FileFaults) (events : List Event) (files : FileSystem)
    (filename : String) : MessageIDs × FileSystem :=
  let messageIDs : MessageIDs := MessageIDs.map []
  match files.get? filename with
  | none =>
    match faults.create events filename with
    | some _ => (messageIDs, files)
    | none =>
      let files1 := files.set filename FileData.malformed
      match faults.encode events filename with
      | some (_, left) => (messageIDs, files1.set filename left)
      | none => (messageIDs, files1.set filename (FileData.value (encodeMessageIDs messageIDs)))
  | some data =>
    match faults.openFile events filename with
    | some _ => (messageIDs, files)
    | none => ((decode messageIDs data).1, files)

/-! ## The loop of `main` -/

/-- The fields of `config.Config` that `main` and `gatherStats` read. -/
structure Config where
  ChannelIDs : List String
  DeleteOldEmbeds : Bool
  IncludeActiveCounts : Bool
  RefreshInterval : Int
  ErrorRefreshInterval : Int
  EmbedTitle : String

/-- What the goroutine of `main` holds: the map, the file system, and the events so far. -/
structure LoopState where
  messageIDs : MessageIDs
  files : FileSystem
  events : List Event

/-- The block `if c.Config.DeleteOldEmbeds { ... }` (main.go 229-236 and, word for word
the same, 254-261): the events after it. The result of each delete is dropped. -/
def deleteOldEmbeds (dg : Session) (enabled : Bool) (channelID : String)
    (events : List Event) : List Event :=
  if enabled then
    let res := dg.ChannelMessages events channelID 100
    let events1 := events ++ [Event.list channelID 100 res]
    match res with
    | Result.ok messages =>
      messages.foldl (fun evs msg =>
        evs ++ [Event.delete channelID msg.ID (dg.ChannelMessageDelete evs channelID msg.ID)])
        events1
    | Result.err _ => events1
  else events

/-- How a piece of the goroutine ends: it ran to its end (or to a `continue`), or it
panicked, which ends the process. Either way with the state reached. -/
inductive Outcome where
  | done (st : LoopState)
  | panic (st : LoopState)

/-- The state an outcome was reached with. -/
def Outcome.state : Outcome → LoopState
  | Outcome.done st => st
  | Outcome.panic st => st

/-- Whether the outcome is a panic. -/
def Outcome.panicked : Outcome → Bool
  | Outcome.done _ => false
  | Outcome.panic _ => true

/-- The block "Update the message ID map if necessary" (main.go 271-277). The assignment
at 273 panics when the map is nil. -/
def updateMessageIDs (faults : FileFaults) (st : LoopState) (channelID msgID : String)
    (msg : Message) : Outcome :=
  if msgID = "" ∨ msgID ≠ msg.ID then
    match st.messageIDs.set channelID msg.ID with
    | none => Outcome.panic st
    | some messageIDs =>
      let r := saveMessageIDs faults st.events st.files "messageIDs.json" messageIDs
      Outcome.done
        { messageIDs := messageIDs, files := r.2,
          events := st.events ++ [Event.save "messageIDs.json" messageIDs r.1] }
  else Outcome.done st

/-- The body of `for _, channelID := range c.Discord.ChannelIDs` (main.go 212-278).
A `continue` is done with the state reached so far. -/
def reconcileChannel (dg : Session) (faults : FileFaults) (c : Config) (embed : MessageEmbed)
    (st : LoopState) (channelID : String) : Outcome :=
  match st.messageIDs.get? channelID with
  | some msgID =>
    let res := dg.ChannelMessageEditEmbed st.events channelID msgID embed
    let st1 := { st with events := st.events ++ [Event.edit channelID msgID embed res] }
    match res with
    | Result.ok msg => updateMessageIDs faults st1 channelID msgID msg
    | Result.err text =>
      if stringsContains text "Unknown Message" then
        let st2 := { st1 with
          events := deleteOldEmbeds dg c.DeleteOldEmbeds channelID st1.events }
        let res2 := dg.ChannelMessageSendEmbed st2.events channelID embed
        let st3 := { st2 with events := st2.events ++ [Event.send channelID embed res2] }
        match res2 with
        | Result.ok msg => updateMessageIDs faults st3 channelID msgID msg
        | Result.err _ => Outcome.done st3
      else Outcome.done st1
  | none =>
    let st2 := { st with events := deleteOldEmbeds dg c.DeleteOldEmbeds channelID st.events }
    let res2 := dg.ChannelMessageSendEmbed st2.events channelID embed
    let st3 := { st2 with events := st2.events ++ [Event.send channelID embed res2] }
    match res2 with
    | Result.ok msg => updateMessageIDs faults st3 channelID "" msg
    | Result.err _ => Outcome.done st3

/-- The whole `for _, channelID := range c.Discord.ChannelIDs` loop, over the channels
still to do. A panic ends it. -/
def reconcileChannels (dg : Session) (faults : FileFaults) (c : Config) (embed : MessageEmbed)
    (st : LoopState) : List String → Outcome
  | [] => Outcome.done st
  | channelID :: rest =>
    match reconcileChannel dg faults c embed st channelID with
    | Outcome.done st1 => reconcileChannels dg faults c embed st1 rest
    | Outcome.panic st1 => Outcome.panic st1

/-! ## `gatherStats` -/

/-- One element of what `api.ApiRequest` returns; `gatherStats` reads `SpawnId` only. -/
structure ApiResponse where
  SpawnId : Int
  deriving DecidableEq, Repr

/-- An open connection `db`, given by what each query of package `database` returns on
it: the value and the error, both of which the caller receives. The result types belong
to that package; `σ` stands for them. -/
structure Database (σ : Type) where
  GetPokeStats : σ × Option String
  GetRaidStats : σ × Option String
  GetGymStats : σ × Option String
  GetPokestopStats : σ × Option String
  GetRewardStats : σ × Option String
  GetLureStats : σ × Option String
  GetRocketStats : σ × Option String
  GetEventStats : σ × Option String
  GetRoutesStats : σ × Option String

/-- The fields of `discord.GatheredStats` that `gatherStats` assigns. -/
structure GatheredStats (σ : Type) where
  Pokemon : σ
  RaidEgg : σ
  Gym : σ
  Pokestop : σ
  Reward : σ
  Lure : σ
  Rocket : σ
  Event : σ
  Route : σ
  HundoActiveCount : Int
  NundoActiveCount : Int

/-- The declaration `var gathered discord.GatheredStats`: every field zero. -/
def GatheredStats.zero {σ : Type} [Inhabited σ] : GatheredStats σ :=
  { Pokemon := default, RaidEgg := default, Gym := default, Pokestop := default,
    Reward := default, Lure := default, Rocket := default, Event := default,
    Route := default, HundoActiveCount := 0, NundoActiveCount := 0 }

/-- The assignment `m[k] = true` on a `map[int]bool`, kept as the list of its keys. -/
def setTrue (keys : List Int) (k : Int) : List Int :=
  if k ∈ keys then keys else keys ++ [k]

/-- The loop `for _, apiResponse := range responses { ids[apiResponse.SpawnId] = true }`
followed by `len(ids)` (main.go 121-125 and 132-136). -/
def countSpawnIds (responses : List ApiResponse) : Int :=
  ((responses.foldl (fun ids apiResponse => setTrue ids apiResponse.SpawnId) []).length : Int)

/-- The live-data API: what `api.ApiRequest(config, min, max)` answers, given the events
so far. -/
abbrev Api := List Event → Int → Int → Result (List ApiResponse)

/-- The function `gatherStats` (main.go 64-142): the stats, the error, and the events
afterwards. Every `return gathered, err` returns what has been assigned so far. -/
def gatherStats {σ : Type} [Inhabited σ] (db : Database σ) (api : Api) (config : Config)
    (events : List Event) : GatheredStats σ × Option String × List Event :=
  let gathered : GatheredStats σ := GatheredStats.zero
  let gathered := { gathered with Pokemon := db.GetPokeStats.1 }
  match db.GetPokeStats.2 with
  | some err => (gathered, some err, events)
  | none =>
  let gathered := { gathered with RaidEgg := db.GetRaidStats.1 }
  match db.GetRaidStats.2 with
  | some err => (gathered, some err, events)
  | none =>
  let gathered := { gathered with Gym := db.GetGymStats.1 }
  match db.GetGymStats.2 with
  | some err => (gathered, some err, events)
  | none =>
  let gathered := { gathered with Pokestop := db.GetPokestopStats.1 }
  match db.GetPokestopStats.2 with
  | some err => (gathered, some err, events)
  | none =>
  let gathered := { gathered with Reward := db.GetRewardStats.1 }
  match db.GetRewardStats.2 with
  | some err => (gathered, some err, events)
  | none =>
  let gathered := { gathered with Lure := db.GetLureStats.1 }
  match db.GetLureStats.2 with
  | some err => (gathered, some err, events)
  | none =>
  let gathered := { gathered with Rocket := db.GetRocketStats.1 }
  match db.GetRocketStats.2 with
  | some err => (gathered, some err, events)
  | none =>
  let gathered := { gathered with Event := db.GetEventStats.1 }
  match db.GetEventStats.2 with
  | some err => (gathered, some err, events)
  | none =>
  let gathered := { gathered with Route := db.GetRoutesStats.1 }
  match db.GetRoutesStats.2 with
  | some err => (gathered, some err, events)
  | none =>
  if config.IncludeActiveCounts then
    let hundo := api events 15 15
    let events1 := events ++ [Event.api 15 15]
    match hundo with
    | Result.err err => (gathered, some err, events1)
    | Result.ok hundoApiResponses =>
    let gathered := { gathered with HundoActiveCount := countSpawnIds hundoApiResponses }
    let nundo := api events1 0 0
    let events2 := events1 ++ [Event.api 0 0]
    match nundo with
    | Result.err err => (gathered, some err, events2)
    | Result.ok nundoApiResponses =>
    let gathered := { gathered with NundoActiveCount := countSpawnIds nundoApiResponses }
    (gathered, none, events2)
  else (gathered, none, events)

/-! ## The scheduler loop -/

/-- The 64-bit signed value of an integer: Go's `int64` arithmetic wraps. -/
def wrapInt64 (v : Int) : Int :=
  (v + 9223372036854775808) % 18446744073709551616 - 9223372036854775808

/-- The expression `time.Duration(n) * time.Second`, in nanoseconds. -/
def seconds (n : Int) : Int :=
  wrapInt64 (wrapInt64 n * 1000000000)

/-- Everything outside the program that one pass of the loop talks to. `DbConn` gives
the connection or the error; `GenerateFields` is the render function of package
`discord`; `now` is `time.Now().Format(time.RFC3339)`. -/
structure World (σ : Type) where
  dg : Session
  faults : FileFaults
  api : Api
  DbConn : List Event → Result (Database σ)
  GenerateFields : GatheredStats σ → Config → List EmbedField
  now : List Event → String

/-- One pass of the `for { ... }` of the goroutine (main.go 188-281), its sleep included. -/
def loopBody {σ : Type} [Inhabited σ] (w : World σ) (c : Config) (st : LoopState) :
    Outcome :=
  match w.DbConn st.events with
  | Result.err _ =>
    Outcome.done
      { st with events := st.events ++ [Event.sleep (seconds c.ErrorRefreshInterval)] }
  | Result.ok db =>
    let r := gatherStats db w.api c st.events
    match r.2.1 with
    | some _ =>
      Outcome.done
        { st with events := r.2.2 ++ [Event.sleep (seconds c.ErrorRefreshInterval)] }
    | none =>
      let fields := w.GenerateFields r.1 c
      let embed : MessageEmbed :=
        { Title := c.EmbedTitle, Fields := fields, Timestamp := w.now r.2.2 }
      match reconcileChannels w.dg w.faults c embed { st with events := r.2.2 }
          c.ChannelIDs with
      | Outcome.done st1 =>
        Outcome.done
          { st1 with events := st1.events ++ [Event.sleep (seconds c.RefreshInterval)] }
      | Outcome.panic st1 => Outcome.panic st1

/-- The first `n` passes of the loop; the loop itself has no exit but a panic. -/
def runLoop {σ : Type} [Inhabited σ] (w : World σ) (c : Config) (st : LoopState) :
    Nat → Outcome
  | 0 => Outcome.done st
  | n + 1 =>
    match loopBody w c st with
    | Outcome.done st1 => runLoop w c st1 n
    | Outcome.panic st1 => Outcome.panic st1

/-! ## Reading the events -/

/-- Whether an event is a call of `ChannelMessageEditEmbed`. -/
def Event.isEdit : Event → Bool
  | Event.edit _ _ _ _ => true
  | _ => false

/-- Whether an event is a call of `ChannelMessageSendEmbed`. -/
def Event.isSend : Event → Bool
  | Event.send _ _ _ => true
  | _ => false

/-- Whether an event is a call of `ChannelMessages`. -/
def Event.isList : Event → Bool
  | Event.list _ _ _ => true
  | _ => false

/-- Whether an event is a call of `ChannelMessageDelete`. -/
def Event.isDelete : Event → Bool
  | Event.delete _ _ _ => true
  | _ => false

/-- Whether an event is a call of `saveMessageIDs`. -/
def Event.isSave : Event → Bool
  | Event.save _ _ _ => true
  | _ => false

/-- Whether an event is a call of `api.ApiRequest`. -/
def Event.isApi : Event → Bool
  | Event.api _ _ => true
  | _ => false

/-- Whether an event is a call on the Discord session (edit, list, delete or send). -/
def Event.isTransport (e : Event) : Bool :=
  e.isEdit || e.isList || e.isDelete || e.isSend

/-- The channel and message of a delete call. -/
def Event.deleted : Event → Option (String × String)
  | Event.delete channelID msgID _ => some (channelID, msgID)
  | _ => none

/-- The events that a step added: those of `after` beyond those of `before`. -/
def newEvents (before after : LoopState) : List Event :=
  after.events.drop before.events.length

/-- The events that the clean-up block adds to `events`. -/
def purgeEvents (dg : Session) (enabled : Bool) (channelID : String)
    (events : List Event) : List Event :=
  (deleteOldEmbeds dg enabled channelID events).drop events.length

/-- The message that a successful edit or send returned. -/
def Event.returned : Event → Option Message
  | Event.edit _ _ _ (Result.ok msg) => some msg
  | Event.send _ _ (Result.ok msg) => some msg
  | _ => none

/-- The last call on the Discord session among the given events. -/
def lastTransport (events : List Event) : Option Event :=
  (events.filter Event.isTransport).getLast?

/-- The string a JSON value leaves in a `map[string]string`: its text for a string, the
empty string for anything else. -/
def JSON.text : JSON → String
  | JSON.string s => s
  | _ => ""

/-- Whether a JSON value decodes into a Go string without error: a string or `null`. -/
def JSON.isStringOrNull : JSON → Bool
  | JSON.string _ => true
  | JSON.null => true
  | _ => false

/-- The id that the loop compares with: `msgID` after `msgID, ok = messageIDs[channelID]`,
the empty string when there is no entry. -/
def storedID (m : MessageIDs) (channelID : String) : String :=
  (m.get? channelID).getD ""

/-- The start of the goroutine: the map as `loadMessageIDs` returned it at main.go 151,
the files it left, and no event yet. -/
def startState (faults : FileFaults) (files : FileSystem) : LoopState :=
  { messageIDs := (loadMessageIDs faults [] files "messageIDs.json").1,
    files := (loadMessageIDs faults [] files "messageIDs.json").2,
    events := [] }

/-- The tail that the two creating paths of `reconcileChannel` share (main.go 228-244 with
271-277, and 253-277), written over the events `before` that precede the clean-up:
clean-up, one send, and on success the update block with the id `msgID` of the lookup. -/
def sendThenUpdate (dg : Session) (faults : FileFaults) (c : Config) (embed : MessageEmbed)
    (st : LoopState) (channelID msgID : String) (before : List Event) : Outcome :=
  match dg.ChannelMessageSendEmbed
      (before ++ purgeEvents dg c.DeleteOldEmbeds channelID before) channelID embed with
  | Result.ok msg =>
    updateMessageIDs faults
      { st with
        events := before ++ purgeEvents dg c.DeleteOldEmbeds channelID before
          ++ [Event.send channelID embed (Result.ok msg)] } channelID msgID msg
  | Result.err text =>
    Outcome.done { st with
      events := before ++ purgeEvents dg c.DeleteOldEmbeds channelID before
        ++ [Event.send channelID embed (Result.err text)] }

/-- Every query on the connection returns a nil error. -/
def Database.allSucceed {σ : Type} (db : Database σ) : Prop :=
  db.GetPokeStats.2 = none ∧ db.GetRaidStats.2 = none ∧ db.GetGymStats.2 = none ∧
  db.GetPokestopStats.2 = none ∧ db.GetRewardStats.2 = none ∧ db.GetLureStats.2 = none ∧
  db.GetRocketStats.2 = none ∧ db.GetEventStats.2 = none ∧ db.GetRoutesStats.2 = none

/-- The number of distinct `SpawnId` values in a response. -/
def distinctSpawnIds (responses : List ApiResponse) : Int :=
  (((responses.map (fun r => r.SpawnId)).toFinset.card : Nat) : Int)

/-! ## Concrete worlds

Small sessions, file systems and states on which the definitions can be evaluated. -/

/-- An embed with the single field `Pokemon: 10`. -/
def exEmbed : MessageEmbed :=
  { Title := "Porygon stats",
    Fields := [{ Name := "Pokemon", Value := "10", Inline := true }],
    Timestamp := "2024-01-01T00:00:00Z" }

/-- A configuration with the one channel `C1`. -/
def exConfig (deleteOld : Bool) : Config :=
  { ChannelIDs := ["C1"], DeleteOldEmbeds := deleteOld, IncludeActiveCounts := false,
    RefreshInterval := 300, ErrorRefreshInterval := 30, EmbedTitle := "Porygon stats" }

/-- An operating system on which no file call fails. -/
def exFaults : FileFaults :=
  { create := fun _ _ => none, openFile := fun _ _ => none, encode := fun _ _ => none }

/-- A session on which every edit answers `editRes` and every send answers `sendRes`; a
channel lists the two messages `old1` and `old2`, and deleting `old2` fails. -/
def exSession (editRes sendRes : Result Message) : Session :=
  { ChannelMessageEditEmbed := fun _ _ _ _ => editRes,
    ChannelMessages := fun _ _ _ => Result.ok [⟨"old1"⟩, ⟨"old2"⟩],
    ChannelMessageDelete := fun _ _ msgID =>
      if msgID = "old2" then some "HTTP 403 Forbidden" else none,
    ChannelMessageSendEmbed := fun _ _ _ => sendRes }

/-- The error discordgo reports for an edit of a message that is gone. -/
def exUnknownMessage : String :=
  "HTTP 404 Not Found, \x7b\"message\": \"Unknown Message\", \"code\": 10008\x7d"

/-- The state at start-up with the given entries, no file and no event. -/
def exState (entries : GoMap String) : LoopState :=
  { messageIDs := MessageIDs.map entries, files := [], events := [] }

/-- A state file that holds the JSON value `null`. -/
def exNullFile : FileSystem :=
  [("messageIDs.json", FileData.value JSON.null)]

/-- A state file with a string value and a number value: `a` maps to `x`, `b` to 5. -/
def exMixedFile : FileSystem :=
  [("messageIDs.json",
    FileData.value (JSON.object [("a", JSON.string "x"), ("b", JSON.number "5")]))]

/-- A connection on which every query succeeds with the value 7. -/
def exDatabase : Database Nat :=
  { GetPokeStats := (7, none), GetRaidStats := (7, none), GetGymStats := (7, none),
    GetPokestopStats := (7, none), GetRewardStats := (7, none), GetLureStats := (7, none),
    GetRocketStats := (7, none), GetEventStats := (7, none), GetRoutesStats := (7, none) }

/-- A connection on which the gym query fails. -/
def exBrokenDatabase : Database Nat :=
  { exDatabase with GetGymStats := (0, some "Error 1146: table does not exist") }

/-- An API that answers three spawns (two of them the same) for (15, 15) and none
otherwise. -/
def exApi : Api := fun _ minIv _ =>
  if minIv = 15 then Result.ok [⟨4⟩, ⟨9⟩, ⟨4⟩] else Result.ok []

/-- A world around `exBrokenDatabase`: aggregation fails in every pass. -/
def exBrokenWorld : World Nat :=
  { dg := exSession (Result.ok ⟨"M1"⟩) (Result.ok ⟨"M1"⟩), faults := exFaults, api := exApi,
    DbConn := fun _ => Result.ok exBrokenDatabase,
    GenerateFields := fun _ _ => exEmbed.Fields,
    now := fun _ => "2024-01-01T00:00:00Z" }


/-- A world in which aggregation succeeds and every send succeeds with the id `M`. -/
def exWorld : World Nat :=
  { dg := exSession (Result.err "unused") (Result.ok ⟨"M"⟩), faults := exFaults, api := exApi,
    DbConn := fun _ => Result.ok exDatabase,
    GenerateFields := fun _ _ => exEmbed.Fields,
    now := fun _ => "2024-01-01T00:00:00Z" }

/-! ## Lemmas on maps -/

theorem GoMap.get?_set_self {α : Type} (m : GoMap α) (key : String) (val : α) :
    (m.set key val).get? key = some val := by
  induction m with
  | nil => simp [GoMap.set, GoMap.get?]
  | cons kv rest ih =>
    obtain ⟨k, v⟩ := kv
    by_cases h : k = key
    · simp [GoMap.set, GoMap.get?, h]
    · simp [GoMap.set, GoMap.get?, h, ih]

theorem GoMap.get?_set_other {α : Type} (m : GoMap α) (key other : String) (val : α)
    (h : key ≠ other) : (m.set key val).get? other = m.get? other := by
  induction m with
  | nil => simp [GoMap.set, GoMap.get?, h]
  | cons kv rest ih =>
    obtain ⟨k, v⟩ := kv
    by_cases hk : k = key
    · subst hk
      simp [GoMap.set, GoMap.get?, h]
    · by_cases ho : k = other
      · subst ho
        simp [GoMap.set, GoMap.get?, hk]
      · simp [GoMap.set, GoMap.get?, hk, ho, ih]

theorem GoMap.set_of_get? {α : Type} (m : GoMap α) (key : String) (val : α)
    (h : m.get? key = some val) : m.set key val = m := by
  induction m with
  | nil => simp [GoMap.get?] at h
  | cons kv rest ih =>
    obtain ⟨k, v⟩ := kv
    by_cases hk : k = key
    · simp [GoMap.get?, hk] at h
      simp [GoMap.set, hk, h]
    · simp [GoMap.get?, hk] at h
      simp [GoMap.set, hk, ih h]

/-! ## Lemmas on the clean-up block -/

theorem deleteLoop_eq (dg : Session) (channelID : String) (messages : List Message) :
    ∀ acc : List Event, ∃ ds : List Event,
      messages.foldl (fun evs msg =>
        evs ++ [Event.delete channelID msg.ID (dg.ChannelMessageDelete evs channelID msg.ID)])
        acc = acc ++ ds ∧
      ds.map Event.deleted = messages.map (fun msg => some (channelID, msg.ID)) := by
  induction messages with
  | nil => intro acc; exact ⟨[], by simp⟩
  | cons msg rest ih =>
    intro acc
    obtain ⟨ds, h1, h2⟩ :=
      ih (acc ++ [Event.delete channelID msg.ID (dg.ChannelMessageDelete acc channelID msg.ID)])
    refine ⟨Event.delete channelID msg.ID (dg.ChannelMessageDelete acc channelID msg.ID) :: ds,
      ?_, ?_⟩
    · simp [List.foldl, h1]
    · simp [Event.deleted, h2]

theorem isDelete_of_deleted (ds : List Event) (targets : List (String × String))
    (h : ds.map Event.deleted = targets.map some) : ∀ e ∈ ds, e.isDelete = true := by
  induction ds generalizing targets with
  | nil => simp
  | cons d rest ih =>
    cases targets with
    | nil => simp at h
    | cons t ts =>
      simp only [List.map_cons, List.cons.injEq] at h
      intro e he
      rcases List.mem_cons.mp he with rfl | he
      · cases e <;> simp [Event.deleted, Event.isDelete] at h ⊢
      · exact ih ts h.2 e he

/-- The clean-up block only adds events: what it returns starts with what it was given. -/
theorem deleteOldEmbeds_eq (dg : Session) (enabled : Bool) (channelID : String)
    (events : List Event) :
    deleteOldEmbeds dg enabled channelID events =
      events ++ purgeEvents dg enabled channelID events := by
  unfold purgeEvents
  suffices h : ∃ l, deleteOldEmbeds dg enabled channelID events = events ++ l by
    obtain ⟨l, hl⟩ := h
    rw [hl]; simp
  unfold deleteOldEmbeds
  cases enabled with
  | false => exact ⟨[], by simp⟩
  | true =>
    simp only [if_true]
    cases hres : dg.ChannelMessages events channelID 100 with
    | err text => exact ⟨_, rfl⟩
    | ok messages =>
      obtain ⟨ds, h1, _⟩ := deleteLoop_eq dg channelID messages
        (events ++ [Event.list channelID 100 (Result.ok messages)])
      exact ⟨[Event.list channelID 100 (Result.ok messages)] ++ ds, by simp [h1]⟩

/-- The shape of what the clean-up block adds: nothing when disabled; otherwise one list
call with limit 100 and then, when that call succeeded, one delete per message it
returned, in order. -/
theorem purgeEvents_shape (dg : Session) (enabled : Bool) (channelID : String)
    (events : List Event) :
    (enabled = false ∧ purgeEvents dg enabled channelID events = []) ∨
    (enabled = true ∧ ∃ ds : List Event,
      purgeEvents dg enabled channelID events =
        Event.list channelID 100 (dg.ChannelMessages events channelID 100) :: ds ∧
      ds.map Event.deleted =
        (match dg.ChannelMessages events channelID 100 with
          | Result.ok messages => messages.map (fun msg => some (channelID, msg.ID))
          | Result.err _ => [])) := by
  unfold purgeEvents deleteOldEmbeds
  cases enabled with
  | false => left; simp
  | true =>
    right
    refine ⟨rfl, ?_⟩
    simp only [if_true]
    cases hres : dg.ChannelMessages events channelID 100 with
    | err text => exact ⟨[], by simp⟩
    | ok messages =>
      obtain ⟨ds, h1, h2⟩ := deleteLoop_eq dg channelID messages
        (events ++ [Event.list channelID 100 (Result.ok messages)])
      exact ⟨ds, by simp [h1], h2⟩

/-- The clean-up block makes list and delete calls only. -/
theorem purgeEvents_kind (dg : Session) (enabled : Bool) (channelID : String)
    (events : List Event) :
    ∀ e ∈ purgeEvents dg enabled channelID events, e.isList = true ∨ e.isDelete = true := by
  intro e he
  rcases purgeEvents_shape dg enabled channelID events with ⟨_, h⟩ | ⟨_, ds, h, hds⟩
  · simp [h] at he
  · rw [h] at he
    rcases List.mem_cons.mp he with rfl | he
    · left; rfl
    · right
      cases hres : dg.ChannelMessages events channelID 100 with
      | err text =>
        rw [hres] at hds
        simp at hds
        simp [hds] at he
      | ok messages =>
        rw [hres] at hds
        refine isDelete_of_deleted ds (messages.map (fun msg => (channelID, msg.ID))) ?_ e he
        simpa using hds

/-! ## Lemmas on the events of a step -/

theorem newEvents_append (st st' : LoopState) (l : List Event)
    (h : st'.events = st.events ++ l) : newEvents st st' = l := by
  simp [newEvents, h]

theorem countP_purge_eq_zero (dg : Session) (enabled : Bool) (channelID : String)
    (events : List Event) (p : Event → Bool)
    (hp : ∀ e : Event, (e.isList = true ∨ e.isDelete = true) → p e = false) :
    (purgeEvents dg enabled channelID events).countP p = 0 := by
  rw [List.countP_eq_zero]
  intro e he
  simp [hp e (purgeEvents_kind dg enabled channelID events e he)]

theorem purge_countP_isEdit (dg : Session) (enabled : Bool) (channelID : String)
    (events : List Event) : (purgeEvents dg enabled channelID events).countP Event.isEdit = 0 :=
  countP_purge_eq_zero dg enabled channelID events _ (by
    intro e h; cases e <;> simp [Event.isList, Event.isDelete, Event.isEdit] at h ⊢)

theorem purge_countP_isSend (dg : Session) (enabled : Bool) (channelID : String)
    (events : List Event) : (purgeEvents dg enabled channelID events).countP Event.isSend = 0 :=
  countP_purge_eq_zero dg enabled channelID events _ (by
    intro e h; cases e <;> simp [Event.isList, Event.isDelete, Event.isSend] at h ⊢)

theorem purge_countP_isSave (dg : Session) (enabled : Bool) (channelID : String)
    (events : List Event) : (purgeEvents dg enabled channelID events).countP Event.isSave = 0 :=
  countP_purge_eq_zero dg enabled channelID events _ (by
    intro e h; cases e <;> simp [Event.isList, Event.isDelete, Event.isSave] at h ⊢)

theorem purge_filter_isSave (dg : Session) (enabled : Bool) (channelID : String)
    (events : List Event) : (purgeEvents dg enabled channelID events).filter Event.isSave = [] := by
  rw [List.filter_eq_nil_iff]
  intro e he
  rcases purgeEvents_kind dg enabled channelID events e he with h | h <;>
    cases e <;> simp [Event.isList, Event.isDelete, Event.isSave] at h ⊢

theorem purge_disabled (dg : Session) (channelID : String) (events : List Event) :
    purgeEvents dg false channelID events = [] := by
  simp [purgeEvents, deleteOldEmbeds]

theorem MessageIDs.get?_map (entries : GoMap String) (key : String) :
    (MessageIDs.map entries).get? key = entries.get? key := rfl

/-- A map with an entry is not nil. -/
theorem MessageIDs.map_of_get? (m : MessageIDs) (key val : String)
    (h : m.get? key = some val) : ∃ entries, m = MessageIDs.map entries ∧
      entries.get? key = some val := by
  cases m with
  | nil => simp [MessageIDs.get?] at h
  | map entries => exact ⟨entries, rfl, h⟩

theorem encodeMessageIDs_single (channelID M : String) :
    encodeMessageIDs (MessageIDs.map [(channelID, M)])
      = JSON.object [(channelID, JSON.string M)] := by
  simp [encodeMessageIDs, insertByKey]

theorem saveMessageIDs_files (faults : FileFaults) (events : List Event) (files : FileSystem)
    (filename : String) (data : MessageIDs)
    (hcreate : faults.create events filename = none)
    (hencode : faults.encode events filename = none) :
    (saveMessageIDs faults events files filename data).1 = none ∧
    (saveMessageIDs faults events files filename data).2.get? filename =
      some (FileData.value (encodeMessageIDs data)) := by
  simp [saveMessageIDs, hcreate, hencode, GoMap.get?_set_self]

/-! ## Lemmas on the update block -/

/-- The update block on a map that is not nil, when the id is new: the entry is set and
the map saved once. -/
theorem updateMessageIDs_changed (faults : FileFaults) (st : LoopState)
    (channelID msgID : String) (msg : Message) (entries : GoMap String)
    (hmap : st.messageIDs = MessageIDs.map entries) (h : msgID = "" ∨ msgID ≠ msg.ID) :
    ∃ (err : Option String) (files : FileSystem),
      updateMessageIDs faults st channelID msgID msg =
        Outcome.done
          { messageIDs := MessageIDs.map (entries.set channelID msg.ID), files := files,
            events := st.events ++ [Event.save "messageIDs.json"
              (MessageIDs.map (entries.set channelID msg.ID)) err] } ∧
      (faults.create st.events "messageIDs.json" = none →
        faults.encode st.events "messageIDs.json" = none →
        err = none ∧ files.get? "messageIDs.json" =
          some (FileData.value
            (encodeMessageIDs (MessageIDs.map (entries.set channelID msg.ID))))) := by
  refine ⟨(saveMessageIDs faults st.events st.files "messageIDs.json"
      (MessageIDs.map (entries.set channelID msg.ID))).1,
    (saveMessageIDs faults st.events st.files "messageIDs.json"
      (MessageIDs.map (entries.set channelID msg.ID))).2, ?_, ?_⟩
  · unfold updateMessageIDs
    rw [if_pos h, hmap]
    rfl
  · intro hc he
    exact saveMessageIDs_files faults st.events st.files "messageIDs.json" _ hc he

/-- The update block when the id returned is the non-empty id already stored: nothing
happens. -/
theorem updateMessageIDs_same (faults : FileFaults) (st : LoopState)
    (channelID msgID : String) (msg : Message) (h : ¬ (msgID = "" ∨ msgID ≠ msg.ID)) :
    updateMessageIDs faults st channelID msgID msg = Outcome.done st := by
  unfold updateMessageIDs
  rw [if_neg h]

/-- The update block on the nil map, when the id is new: the assignment panics, with
the state as it was. -/
theorem updateMessageIDs_nil (faults : FileFaults) (st : LoopState)
    (channelID msgID : String) (msg : Message)
    (hnil : st.messageIDs = MessageIDs.nil) (h : msgID = "" ∨ msgID ≠ msg.ID) :
    updateMessageIDs faults st channelID msgID msg = Outcome.panic st := by
  unfold updateMessageIDs
  rw [if_pos h, hnil]
  rfl

/-- The update block adds save calls only; on a map that is not nil it does not panic
and saves once exactly when its test holds. -/
theorem updateMessageIDs_events (faults : FileFaults) (st : LoopState)
    (channelID msgID : String) (msg : Message) :
    ∃ saves : List Event,
      (updateMessageIDs faults st channelID msgID msg).state.events = st.events ++ saves ∧
      (∀ e ∈ saves, e.isSave = true) ∧
      (∀ entries, st.messageIDs = MessageIDs.map entries →
        (updateMessageIDs faults st channelID msgID msg).panicked = false ∧
        saves.length = (if msgID = "" ∨ msgID ≠ msg.ID then 1 else 0)) := by
  by_cases h : msgID = "" ∨ msgID ≠ msg.ID
  · cases hm : st.messageIDs with
    | nil =>
      refine ⟨[], ?_, by simp, ?_⟩
      · rw [updateMessageIDs_nil faults st channelID msgID msg hm h]
        simp [Outcome.state]
      · intro entries he
        cases he
    | map entries =>
      obtain ⟨err, files, hupd, _⟩ :=
        updateMessageIDs_changed faults st channelID msgID msg entries hm h
      refine ⟨[Event.save "messageIDs.json" (MessageIDs.map (entries.set channelID msg.ID))
        err], by rw [hupd]; rfl, by simp [Event.isSave], ?_⟩
      intro entries2 _
      rw [hupd]
      exact ⟨rfl, by simp [h]⟩
  · refine ⟨[], ?_, by simp, ?_⟩
    · rw [updateMessageIDs_same faults st channelID msgID msg h]
      simp [Outcome.state]
    · intro entries _
      rw [updateMessageIDs_same faults st channelID msgID msg h]
      exact ⟨rfl, by simp [h]⟩

/-- After the update block on a map that is not nil, the entry of the channel is the id
of `msg`, when `msgID` is what the lookup gave. -/
theorem updateMessageIDs_entry (faults : FileFaults) (st : LoopState)
    (channelID msgID : String) (msg : Message) (entries : GoMap String)
    (hmap : st.messageIDs = MessageIDs.map entries)
    (hlookup : msgID = "" ∨ st.messageIDs.get? channelID = some msgID) :
    (updateMessageIDs faults st channelID msgID msg).state.messageIDs.get? channelID
      = some msg.ID := by
  by_cases h : msgID = "" ∨ msgID ≠ msg.ID
  · obtain ⟨err, files, hupd, _⟩ :=
      updateMessageIDs_changed faults st channelID msgID msg entries hmap h
    rw [hupd]
    exact GoMap.get?_set_self _ _ _
  · rw [updateMessageIDs_same faults st channelID msgID msg h]
    simp only [not_or, not_not] at h
    rcases hlookup with h0 | h1
    · exact absurd h0 h.1
    · simp only [Outcome.state]
      rw [h1, h.2]

/-- The map after the update block on a map that is not nil. -/
theorem updateMessageIDs_messageIDs (faults : FileFaults) (st : LoopState)
    (channelID msgID : String) (msg : Message) (entries : GoMap String)
    (hmap : st.messageIDs = MessageIDs.map entries) :
    (updateMessageIDs faults st channelID msgID msg).state.messageIDs =
      if msgID = "" ∨ msgID ≠ msg.ID then MessageIDs.map (entries.set channelID msg.ID)
      else st.messageIDs := by
  by_cases h : msgID = "" ∨ msgID ≠ msg.ID
  · obtain ⟨err, files, hupd, _⟩ :=
      updateMessageIDs_changed faults st channelID msgID msg entries hmap h
    rw [hupd, if_pos h]
    rfl
  · rw [updateMessageIDs_same faults st channelID msgID msg h, if_neg h]
    rfl

/-- When the id returned is the id stored, the update block leaves the map as it was. -/
theorem updateMessageIDs_same_id (faults : FileFaults) (st : LoopState)
    (channelID msgID : String) (msg : Message)
    (hstored : st.messageIDs.get? channelID = some msgID) (hid : msg.ID = msgID) :
    (updateMessageIDs faults st channelID msgID msg).state.messageIDs = st.messageIDs := by
  obtain ⟨entries, hmap, hget⟩ := MessageIDs.map_of_get? st.messageIDs channelID msgID hstored
  rw [updateMessageIDs_messageIDs faults st channelID msgID msg entries hmap]
  by_cases h : msgID = "" ∨ msgID ≠ msg.ID
  · rw [if_pos h, hid, GoMap.set_of_get? _ _ _ hget, hmap]
  · rw [if_neg h]

/-! ## Lemmas on the paths of `reconcileChannel` -/

/-- The path with no stored id: clean-up, then one send, then the update block. -/
theorem reconcileChannel_absent (dg : Session) (faults : FileFaults) (c : Config)
    (embed : MessageEmbed) (st : LoopState) (channelID : String)
    (habsent : st.messageIDs.get? channelID = none) :
    reconcileChannel dg faults c embed st channelID =
      sendThenUpdate dg faults c embed st channelID "" st.events := by
  unfold reconcileChannel sendThenUpdate
  rw [habsent]
  simp only [deleteOldEmbeds_eq]
  cases h : dg.ChannelMessageSendEmbed
    (st.events ++ purgeEvents dg c.DeleteOldEmbeds channelID st.events) channelID embed <;> rfl

/-- The path with a stored id whose edit succeeds: one edit, then the update block. -/
theorem reconcileChannel_edited (dg : Session) (faults : FileFaults) (c : Config)
    (embed : MessageEmbed) (st : LoopState) (channelID msgID : String) (msg : Message)
    (hstored : st.messageIDs.get? channelID = some msgID)
    (hedit : dg.ChannelMessageEditEmbed st.events channelID msgID embed = Result.ok msg) :
    reconcileChannel dg faults c embed st channelID =
      updateMessageIDs faults
        { st with events := st.events ++ [Event.edit channelID msgID embed (Result.ok msg)] }
        channelID msgID msg := by
  unfold reconcileChannel
  rw [hstored]
  simp only [hedit]

/-- The path with a stored id whose edit fails with a text that has no "Unknown Message":
one edit and nothing else. -/
theorem reconcileChannel_editFailed (dg : Session) (faults : FileFaults) (c : Config)
    (embed : MessageEmbed) (st : LoopState) (channelID msgID text : String)
    (hstored : st.messageIDs.get? channelID = some msgID)
    (hedit : dg.ChannelMessageEditEmbed st.events channelID msgID embed = Result.err text)
    (hother : stringsContains text "Unknown Message" = false) :
    reconcileChannel dg faults c embed st channelID =
      Outcome.done
        { st with events := st.events ++ [Event.edit channelID msgID embed (Result.err text)] } := by
  unfold reconcileChannel
  rw [hstored]
  simp only [hedit, hother]
  rfl

/-- The path with a stored id whose edit fails with "Unknown Message": one edit, clean-up,
one send, then the update block with the stale id. -/
theorem reconcileChannel_stale (dg : Session) (faults : FileFaults) (c : Config)
    (embed : MessageEmbed) (st : LoopState) (channelID msgID text : String)
    (hstored : st.messageIDs.get? channelID = some msgID)
    (hedit : dg.ChannelMessageEditEmbed st.events channelID msgID embed = Result.err text)
    (hgone : stringsContains text "Unknown Message" = true) :
    reconcileChannel dg faults c embed st channelID =
      sendThenUpdate dg faults c embed st channelID msgID
        (st.events ++ [Event.edit channelID msgID embed (Result.err text)]) := by
  unfold reconcileChannel sendThenUpdate
  rw [hstored]
  simp only [hedit, hgone, deleteOldEmbeds_eq, if_true]
  cases h : dg.ChannelMessageSendEmbed
    (st.events ++ [Event.edit channelID msgID embed (Result.err text)] ++
      purgeEvents dg c.DeleteOldEmbeds channelID
        (st.events ++ [Event.edit channelID msgID embed (Result.err text)])) channelID embed <;> rfl

theorem countP_eq_zero_of_saves (saves : List Event) (p : Event → Bool)
    (hs : ∀ e ∈ saves, e.isSave = true) (hp : ∀ e : Event, e.isSave = true → p e = false) :
    saves.countP p = 0 := by
  rw [List.countP_eq_zero]
  intro e he
  simp [hp e (hs e he)]

theorem isSave_not_isEdit (e : Event) (h : e.isSave = true) : e.isEdit = false := by
  cases e <;> simp [Event.isSave, Event.isEdit] at h ⊢

theorem isSave_not_isSend (e : Event) (h : e.isSave = true) : e.isSend = false := by
  cases e <;> simp [Event.isSave, Event.isSend] at h ⊢

theorem isSave_not_isList (e : Event) (h : e.isSave = true) : e.isList = false := by
  cases e <;> simp [Event.isSave, Event.isList] at h ⊢

theorem isSave_not_isDelete (e : Event) (h : e.isSave = true) : e.isDelete = false := by
  cases e <;> simp [Event.isSave, Event.isDelete] at h ⊢

theorem isEdit_not_isList (e : Event) (h : e.isEdit = true) : e.isList = false := by
  cases e <;> simp [Event.isEdit, Event.isList] at h ⊢

theorem isEdit_not_isSend (e : Event) (h : e.isEdit = true) : e.isSend = false := by
  cases e <;> simp [Event.isEdit, Event.isSend] at h ⊢

theorem isEdit_not_isDelete (e : Event) (h : e.isEdit = true) : e.isDelete = false := by
  cases e <;> simp [Event.isEdit, Event.isDelete] at h ⊢

theorem isEdit_not_isSave (e : Event) (h : e.isEdit = true) : e.isSave = false := by
  cases e <;> simp [Event.isEdit, Event.isSave] at h ⊢

theorem isDelete_not_isList (e : Event) (h : e.isDelete = true) : e.isList = false := by
  cases e <;> simp [Event.isDelete, Event.isList] at h ⊢

theorem isDelete_not_isSend (e : Event) (h : e.isDelete = true) : e.isSend = false := by
  cases e <;> simp [Event.isDelete, Event.isSend] at h ⊢

theorem countP_eq_zero_of_kind (l : List Event) (k p : Event → Bool)
    (hl : ∀ e ∈ l, k e = true) (hp : ∀ e : Event, k e = true → p e = false) :
    l.countP p = 0 := by
  rw [List.countP_eq_zero]
  intro e he
  simp [hp e (hl e he)]

theorem isSave_not_isTransport (e : Event) (h : e.isSave = true) : e.isTransport = false := by
  cases e <;> simp [Event.isSave, Event.isTransport, Event.isEdit, Event.isList,
    Event.isDelete, Event.isSend] at h ⊢


/-! ## Lemmas on what a reconciliation leaves -/

/-- What a successful edit of the stored id leaves: no panic; the events are the old
ones, the edit, and save calls; the entry is the id returned. -/
theorem reconcileChannel_edited_summary (dg : Session) (faults : FileFaults) (c : Config)
    (embed : MessageEmbed) (st : LoopState) (channelID msgID : String) (msg : Message)
    (hstored : st.messageIDs.get? channelID = some msgID)
    (hedit : dg.ChannelMessageEditEmbed st.events channelID msgID embed = Result.ok msg) :
    (∃ saves : List Event,
      newEvents st (reconcileChannel dg faults c embed st channelID).state =
        Event.edit channelID msgID embed (Result.ok msg) :: saves ∧
      (∀ e ∈ saves, e.isSave = true)) ∧
    (reconcileChannel dg faults c embed st channelID).panicked = false ∧
    (reconcileChannel dg faults c embed st channelID).state.messageIDs.get? channelID
      = some msg.ID ∧
    (msg.ID = msgID →
      (reconcileChannel dg faults c embed st channelID).state.messageIDs = st.messageIDs) := by
  obtain ⟨entries, hmap, _⟩ := MessageIDs.map_of_get? st.messageIDs channelID msgID hstored
  rw [reconcileChannel_edited dg faults c embed st channelID msgID msg hstored hedit]
  obtain ⟨saves, hev, hs, hok⟩ := updateMessageIDs_events faults
    { st with events := st.events ++ [Event.edit channelID msgID embed (Result.ok msg)] }
    channelID msgID msg
  refine ⟨⟨saves, ?_, hs⟩, (hok entries hmap).1, ?_, ?_⟩
  · apply newEvents_append
    rw [hev]
    simp
  · exact updateMessageIDs_entry faults _ channelID msgID msg entries hmap (Or.inr hstored)
  · intro hid
    exact updateMessageIDs_same_id faults _ channelID msgID msg hstored hid

/-- What the shared creating tail leaves, when it starts `pre` events after `st`: the
new events are `pre`, the clean-up, the send, and save calls. After a successful send
on a map that is not nil there is no panic, the entry is the id returned, and there is
one save exactly when the test of the update block holds. After a failed send there is
no panic, no save, and the map is as before. -/
theorem sendThenUpdate_summary (dg : Session) (faults : FileFaults) (c : Config)
    (embed : MessageEmbed) (st : LoopState) (channelID msgID : String) (pre : List Event)
    (hlookup : msgID = "" ∨ st.messageIDs.get? channelID = some msgID) :
    ∃ saves : List Event,
      newEvents st
        (sendThenUpdate dg faults c embed st channelID msgID (st.events ++ pre)).state =
        pre ++ purgeEvents dg c.DeleteOldEmbeds channelID (st.events ++ pre) ++
          Event.send channelID embed (dg.ChannelMessageSendEmbed
            (st.events ++ pre ++ purgeEvents dg c.DeleteOldEmbeds channelID (st.events ++ pre))
            channelID embed) :: saves ∧
      (∀ e ∈ saves, e.isSave = true) ∧
      (∀ entries msg, st.messageIDs = MessageIDs.map entries →
        dg.ChannelMessageSendEmbed
          (st.events ++ pre ++ purgeEvents dg c.DeleteOldEmbeds channelID (st.events ++ pre))
          channelID embed = Result.ok msg →
        (sendThenUpdate dg faults c embed st channelID msgID
          (st.events ++ pre)).panicked = false ∧
        (sendThenUpdate dg faults c embed st channelID msgID
          (st.events ++ pre)).state.messageIDs.get? channelID = some msg.ID ∧
        saves.length = (if msgID = "" ∨ msgID ≠ msg.ID then 1 else 0)) ∧
      (∀ text, dg.ChannelMessageSendEmbed
          (st.events ++ pre ++ purgeEvents dg c.DeleteOldEmbeds channelID (st.events ++ pre))
          channelID embed = Result.err text →
        saves = [] ∧
        (sendThenUpdate dg faults c embed st channelID msgID
          (st.events ++ pre)).panicked = false ∧
        (sendThenUpdate dg faults c embed st channelID msgID
          (st.events ++ pre)).state.messageIDs = st.messageIDs) := by
  unfold sendThenUpdate
  cases hres : dg.ChannelMessageSendEmbed
    (st.events ++ pre ++ purgeEvents dg c.DeleteOldEmbeds channelID (st.events ++ pre))
    channelID embed with
  | err text =>
    refine ⟨[], ?_, by simp, ?_, ?_⟩
    · apply newEvents_append
      simp [Outcome.state]
    · intro entries msg _ h
      cases h
    · intro t _
      exact ⟨rfl, rfl, rfl⟩
  | ok msg0 =>
    obtain ⟨saves, hev, hs, hok⟩ := updateMessageIDs_events faults
      { st with
        events := st.events ++ pre ++ purgeEvents dg c.DeleteOldEmbeds channelID (st.events ++ pre)
          ++ [Event.send channelID embed (Result.ok msg0)] } channelID msgID msg0
    refine ⟨saves, ?_, hs, ?_, ?_⟩
    · apply newEvents_append
      simp only [hev]
      simp
    · intro entries msg hmap h
      have hm : msg0 = msg := by injection h
      rw [← hm]
      exact ⟨(hok entries hmap).1,
        updateMessageIDs_entry faults _ channelID msgID msg0 entries hmap hlookup,
        (hok entries hmap).2⟩
    · intro t h
      cases h

/-- The shared creating tail on the nil map, when the send succeeds: the assignment
panics; the send is the last event, nothing is saved, and the map is still nil. -/
theorem sendThenUpdate_nil (dg : Session) (faults : FileFaults) (c : Config)
    (embed : MessageEmbed) (st : LoopState) (channelID : String) (before : List Event)
    (msg : Message) (hnil : st.messageIDs = MessageIDs.nil)
    (hsend : dg.ChannelMessageSendEmbed
      (before ++ purgeEvents dg c.DeleteOldEmbeds channelID before) channelID embed
        = Result.ok msg) :
    sendThenUpdate dg faults c embed st channelID "" before =
      Outcome.panic
        { st with
          events := before ++ purgeEvents dg c.DeleteOldEmbeds channelID before
            ++ [Event.send channelID embed (Result.ok msg)] } := by
  unfold sendThenUpdate
  rw [hsend]
  exact updateMessageIDs_nil faults _ channelID "" msg hnil (Or.inl rfl)

/-- The map after the shared creating tail, on a map that is not nil, when the send
succeeds. -/
theorem sendThenUpdate_messageIDs (dg : Session) (faults : FileFaults) (c : Config)
    (embed : MessageEmbed) (st : LoopState) (channelID msgID : String) (before : List Event)
    (msg : Message) (entries : GoMap String)
    (hmap : st.messageIDs = MessageIDs.map entries)
    (hsend : dg.ChannelMessageSendEmbed
      (before ++ purgeEvents dg c.DeleteOldEmbeds channelID before) channelID embed
        = Result.ok msg) :
    (sendThenUpdate dg faults c embed st channelID msgID before).state.messageIDs =
      if msgID = "" ∨ msgID ≠ msg.ID then MessageIDs.map (entries.set channelID msg.ID)
      else st.messageIDs := by
  unfold sendThenUpdate
  rw [hsend]
  exact updateMessageIDs_messageIDs faults _ channelID msgID msg entries hmap

theorem countP_purge_disabled (dg : Session) (channelID : String) (events : List Event)
    (p : Event → Bool) : (purgeEvents dg false channelID events).countP p = 0 := by
  rw [purge_disabled]
  rfl

/-- The last session call of events that end with a session call and then saves. -/
theorem lastTransport_append_cons (l saves : List Event) (x : Event)
    (hx : x.isTransport = true) (hs : ∀ e ∈ saves, e.isSave = true) :
    lastTransport (l ++ x :: saves) = some x := by
  have hnil : saves.filter Event.isTransport = [] := by
    rw [List.filter_eq_nil_iff]
    intro e he
    simp [isSave_not_isTransport e (hs e he)]
  unfold lastTransport
  rw [List.filter_append, List.filter_cons, if_pos hx, hnil]
  simp

theorem countP_isSave_of_saves (saves : List Event) (hs : ∀ e ∈ saves, e.isSave = true) :
    saves.countP Event.isSave = saves.length := by
  rw [List.countP_eq_length]
  exact hs

theorem isDelete_of_deleted_eq (ds : List Event) (targets : List (Option (String × String)))
    (h : ds.map Event.deleted = targets) (ht : ∀ t ∈ targets, t ≠ none) :
    ∀ e ∈ ds, e.isDelete = true := by
  intro e he
  have hmem : e.deleted ∈ targets := by
    rw [← h]
    exact List.mem_map_of_mem _ he
  have hne := ht _ hmem
  cases e <;> simp [Event.deleted, Event.isDelete] at hne ⊢

/-- What the shared creating tail adds when clean-up is enabled, on any map: `pre`, one
list call with limit 100, one delete per message listed, one send, then saves. -/
theorem sendThenUpdate_cleanup (dg : Session) (faults : FileFaults) (c : Config)
    (embed : MessageEmbed) (st : LoopState) (channelID msgID : String) (pre : List Event)
    (hlookup : msgID = "" ∨ st.messageIDs.get? channelID = some msgID)
    (hon : c.DeleteOldEmbeds = true) :
    ∃ (ds saves : List Event) (sres : Result Message),
      newEvents st
        (sendThenUpdate dg faults c embed st channelID msgID (st.events ++ pre)).state =
        pre ++ Event.list channelID 100 (dg.ChannelMessages (st.events ++ pre) channelID 100)
          :: ds ++ Event.send channelID embed sres :: saves ∧
      ds.map Event.deleted =
        (match dg.ChannelMessages (st.events ++ pre) channelID 100 with
          | Result.ok messages => messages.map (fun msg => some (channelID, msg.ID))
          | Result.err _ => []) ∧
      (∀ e ∈ ds, e.isDelete = true) ∧
      (∀ e ∈ saves, e.isSave = true) := by
  obtain ⟨saves, hnew, hs, _, _⟩ := sendThenUpdate_summary dg faults c embed st channelID
    msgID pre hlookup
  rcases purgeEvents_shape dg c.DeleteOldEmbeds channelID (st.events ++ pre) with
    ⟨hoff, _⟩ | ⟨_, ds, hshape, hds⟩
  · rw [hon] at hoff
    cases hoff
  · rw [hon] at hshape
    refine ⟨ds, saves, dg.ChannelMessageSendEmbed
      (st.events ++ pre ++ purgeEvents dg c.DeleteOldEmbeds channelID (st.events ++ pre))
      channelID embed, ?_, hds, ?_, hs⟩
    · rw [hnew, hon, hshape]
    · apply isDelete_of_deleted_eq ds _ hds
      intro t ht
      cases hres : dg.ChannelMessages (st.events ++ pre) channelID 100 with
      | err text => rw [hres] at ht; simp at ht
      | ok messages =>
        rw [hres] at ht
        simp only [List.mem_map] at ht
        obtain ⟨m, _, hm⟩ := ht
        rw [← hm]
        simp

/-! ## Lemmas on `gatherStats` -/

theorem setTrue_nodup (keys : List Int) (k : Int) (h : keys.Nodup) : (setTrue keys k).Nodup := by
  unfold setTrue
  by_cases hk : k ∈ keys
  · simpa [hk] using h
  · simp only [hk, if_false]
    exact List.Nodup.append h (List.nodup_singleton k) (by simpa using hk)

theorem setTrue_toFinset (keys : List Int) (k : Int) :
    (setTrue keys k).toFinset = insert k keys.toFinset := by
  unfold setTrue
  by_cases hk : k ∈ keys
  · simp [hk]
  · ext x
    simp [hk, or_comm]

theorem spawnIds_fold (responses : List ApiResponse) :
    ∀ keys : List Int, keys.Nodup →
      (responses.foldl (fun ids apiResponse => setTrue ids apiResponse.SpawnId) keys).Nodup ∧
      (responses.foldl (fun ids apiResponse => setTrue ids apiResponse.SpawnId) keys).toFinset
        = keys.toFinset ∪ (responses.map (fun r => r.SpawnId)).toFinset := by
  induction responses with
  | nil => intro keys h; simpa using h
  | cons r rest ih =>
    intro keys h
    obtain ⟨h1, h2⟩ := ih (setTrue keys r.SpawnId) (setTrue_nodup keys r.SpawnId h)
    refine ⟨h1, ?_⟩
    simp only [List.foldl_cons, h2, setTrue_toFinset, List.map_cons, List.toFinset_cons]
    ext x
    simp only [Finset.mem_union, Finset.mem_insert]
    tauto

/-- The length of the key set that the loop builds is the number of distinct spawn ids. -/
theorem countSpawnIds_eq (responses : List ApiResponse) :
    countSpawnIds responses = distinctSpawnIds responses := by
  obtain ⟨h1, h2⟩ := spawnIds_fold responses [] List.nodup_nil
  unfold countSpawnIds distinctSpawnIds
  rw [← List.toFinset_card_of_nodup h1, h2]
  simp

/-- Whatever `gatherStats` returns, it has added API calls only, and none when
`IncludeActiveCounts` is off. -/
theorem gatherStats_events {σ : Type} [Inhabited σ] (db : Database σ) (api : Api)
    (config : Config) (events : List Event) :
    ∃ calls : List Event,
      (gatherStats db api config events).2.2 = events ++ calls ∧
      (∀ e ∈ calls, e.isApi = true) ∧
      (config.IncludeActiveCounts = false → calls = []) := by
  unfold gatherStats
  have h0 : ∃ calls : List Event, events = events ++ calls ∧ (∀ e ∈ calls, e.isApi = true) ∧
      (config.IncludeActiveCounts = false → calls = []) := ⟨[], by simp⟩
  simp only
  repeat' split
  all_goals first
    | exact h0
    | exact ⟨[Event.api 15 15], rfl, by simp [Event.isApi], by simp_all⟩
    | exact ⟨[Event.api 15 15, Event.api 0 0], by simp, by simp [Event.isApi], by simp_all⟩

/-- With `IncludeActiveCounts` off, both active counts are zero on every return. -/
theorem gatherStats_counts_off {σ : Type} [Inhabited σ] (db : Database σ) (api : Api)
    (config : Config) (events : List Event) (hoff : config.IncludeActiveCounts = false) :
    (gatherStats db api config events).1.HundoActiveCount = 0 ∧
    (gatherStats db api config events).1.NundoActiveCount = 0 := by
  unfold gatherStats
  simp only [hoff]
  repeat' split
  all_goals first
    | exact ⟨rfl, rfl⟩
    | simp_all

/-! ## Lemmas on `decode` -/

theorem lookup_append_single {β : Type} (l : List (String × β)) (key k : String) (v : β) :
    (l ++ [(key, v)]).lookup k =
      (match l.lookup k with
        | some w => some w
        | none => if key = k then some v else none) := by
  induction l with
  | nil =>
    by_cases h : key = k
    · subst h; simp [List.lookup]
    · have h2 : (k == key) = false := by simpa using fun hh => h hh.symm
      simp [List.lookup, h, h2]
  | cons kv rest ih =>
    obtain ⟨k1, v1⟩ := kv
    by_cases h : k = k1
    · subst h; simp [List.lookup]
    · have h2 : (k == k1) = false := by simpa using h
      simp only [List.cons_append, List.lookup, h2]
      exact ih

theorem decodeMember_fst (m : GoMap String) (key : String) (v : JSON) :
    (decodeMember m key v).1 = m.set key v.text := by
  cases v <;> rfl

/-- After an object is decoded into a map, a key holds the text of the last member with
that key, or what the map held when there is no such member. -/
theorem decodeMembers_get? (members : List (String × JSON)) :
    ∀ (m : GoMap String) (k : String),
      (decodeMembers m members).1.get? k =
        (match members.reverse.lookup k with
          | some v => some v.text
          | none => m.get? k) := by
  induction members with
  | nil => intro m k; simp [decodeMembers, List.lookup]
  | cons kv rest ih =>
    obtain ⟨key, v⟩ := kv
    intro m k
    simp only [decodeMembers, List.reverse_cons, lookup_append_single]
    rw [ih, decodeMember_fst]
    cases hl : rest.reverse.lookup k with
    | some w => rfl
    | none =>
      by_cases h : key = k
      · subst h
        simp [GoMap.get?_set_self]
      · simp [h, GoMap.get?_set_other _ _ _ _ h]

theorem lookup_map_string (kvs : List (String × String)) (k : String) :
    (kvs.map (fun kv => (kv.1, JSON.string kv.2))).lookup k =
      (kvs.lookup k).map JSON.string := by
  induction kvs with
  | nil => rfl
  | cons kv rest ih =>
    obtain ⟨k1, v1⟩ := kv
    by_cases h : k = k1
    · subst h; simp [List.lookup]
    · have h2 : (k == k1) = false := by simpa using h
      simp only [List.map_cons, List.lookup, h2, ih]


theorem decodeMember_snd (m : GoMap String) (key : String) (v : JSON) :
    (decodeMember m key v).2 = none ↔ v.isStringOrNull = true := by
  cases v <;> simp [decodeMember, JSON.isStringOrNull]

/-- Decoding an object reports an error exactly when some member is neither a string
nor `null`. -/
theorem decodeMembers_snd (members : List (String × JSON)) :
    ∀ m : GoMap String,
      (decodeMembers m members).2 = none ↔ ∀ kv ∈ members, kv.2.isStringOrNull = true := by
  induction members with
  | nil => intro m; simp [decodeMembers]
  | cons kv rest ih =>
    obtain ⟨key, v⟩ := kv
    intro m
    simp only [decodeMembers, List.mem_cons, forall_eq_or_imp]
    rw [← ih (decodeMember m key v).1, ← decodeMember_snd m key v]
    cases (decodeMember m key v).2 <;> simp [Option.orElse]

/-- After a non-empty object is decoded, the key of its last member has an entry. -/
theorem decodeMembers_ne_nil (members : List (String × JSON)) (m : GoMap String)
    (h : members ≠ []) : (decodeMembers m members).1 ≠ [] := by
  rcases List.eq_nil_or_concat members with hnil | ⟨init, last, hlast⟩
  · exact absurd hnil h
  · intro hempty
    have hget := decodeMembers_get? members m last.1
    rw [hempty, hlast] at hget
    simp [List.lookup, GoMap.get?] at hget

/-! ## The claims -/

/-- What the path with no stored id does on a map that is not nil, when the send succeeds
with id `M`: no panic, no edit call, exactly one send call, the map afterwards is the old
map with the channel set to `M`, and `saveMessageIDs` is called exactly once, with that
whole map. From the map with no entry the saved map is exactly `{channelID: M}`, and when
no file call fails the state file then holds exactly that object. -/
theorem reconcile_absent_on_map (dg : Session) (faults : FileFaults) (c : Config)
    (embed : MessageEmbed) (st : LoopState) (channelID M : String) (entries : GoMap String)
    (hmap : st.messageIDs = MessageIDs.map entries)
    (habsent : st.messageIDs.get? channelID = none)
    (hsend : dg.ChannelMessageSendEmbed
      (deleteOldEmbeds dg c.DeleteOldEmbeds channelID st.events) channelID embed
        = Result.ok ⟨M⟩) :
    (reconcileChannel dg faults c embed st channelID).panicked = false ∧
    (newEvents st (reconcileChannel dg faults c embed st channelID).state).countP
      Event.isEdit = 0 ∧
    (newEvents st (reconcileChannel dg faults c embed st channelID).state).countP
      Event.isSend = 1 ∧
    (reconcileChannel dg faults c embed st channelID).state.messageIDs
      = MessageIDs.map (entries.set channelID M) ∧
    (reconcileChannel dg faults c embed st channelID).state.messageIDs.get? channelID
      = some M ∧
    (∃ err, (newEvents st (reconcileChannel dg faults c embed st channelID).state).filter
      Event.isSave = [Event.save "messageIDs.json" (MessageIDs.map (entries.set channelID M))
        err]) ∧
    (entries = [] →
      (reconcileChannel dg faults c embed st channelID).state.messageIDs
        = MessageIDs.map [(channelID, M)] ∧
      (∃ err, (newEvents st (reconcileChannel dg faults c embed st channelID).state).filter
        Event.isSave = [Event.save "messageIDs.json" (MessageIDs.map [(channelID, M)]) err]) ∧
      ((∀ evs, faults.create evs "messageIDs.json" = none) →
        (∀ evs, faults.encode evs "messageIDs.json" = none) →
        (reconcileChannel dg faults c embed st channelID).state.files.get? "messageIDs.json"
          = some (FileData.value (JSON.object [(channelID, JSON.string M)])))) := by
  rw [deleteOldEmbeds_eq] at hsend
  rw [reconcileChannel_absent dg faults c embed st channelID habsent]
  unfold sendThenUpdate
  rw [hsend]
  obtain ⟨err, files, hupd, hfile⟩ := updateMessageIDs_changed faults
    { st with events := st.events ++ purgeEvents dg c.DeleteOldEmbeds channelID st.events
        ++ [Event.send channelID embed (Result.ok ⟨M⟩)] } channelID "" ⟨M⟩ entries hmap
    (Or.inl rfl)
  simp only [hupd, Outcome.state, Outcome.panicked]
  have hnew : ∀ (ms : MessageIDs) (fs : FileSystem) (l : List Event),
      newEvents st { messageIDs := ms, files := fs, events := st.events ++ l } = l :=
    fun ms fs l => newEvents_append st _ l rfl
  simp only [List.append_assoc, hnew]
  refine ⟨trivial, ?_, ?_, trivial, GoMap.get?_set_self _ _ _, ⟨err, ?_⟩, ?_⟩
  · simp [List.countP_append, purge_countP_isEdit, Event.isEdit]
  · simp [List.countP_append, purge_countP_isSend, Event.isSend]
  · simp [List.filter_append, purge_filter_isSave, Event.isSave]
  · intro hempty
    refine ⟨by simp [hempty, GoMap.set], ⟨err, ?_⟩, ?_⟩
    · simp [List.filter_append, purge_filter_isSave, Event.isSave, hempty, GoMap.set]
    · intro hc he
      have h := (hfile (hc _) (he _)).2
      simpa [hempty, GoMap.set, encodeMessageIDs_single] using h

/-- C1, at the input where the code fails. The state file holds `null`, so
`loadMessageIDs` returns the nil map. Channel `C1` has no entry and the send succeeds
with id `M`; the assignment at main.go 273 then panics: the only event is the send,
nothing is saved, `C1` has no entry, and the pass of the loop ends in that panic. -/
theorem null_state_file_panics_after_first_send :
    (startState exFaults exNullFile).messageIDs = MessageIDs.nil ∧
    (startState exFaults exNullFile).messageIDs.get? "C1" = none ∧
    (reconcileChannel (exSession (Result.err "unused") (Result.ok ⟨"M"⟩)) exFaults
      (exConfig false) exEmbed (startState exFaults exNullFile) "C1").panicked = true ∧
    newEvents (startState exFaults exNullFile)
      (reconcileChannel (exSession (Result.err "unused") (Result.ok ⟨"M"⟩)) exFaults
        (exConfig false) exEmbed (startState exFaults exNullFile) "C1").state
      = [Event.send "C1" exEmbed (Result.ok ⟨"M"⟩)] ∧
    (reconcileChannel (exSession (Result.err "unused") (Result.ok ⟨"M"⟩)) exFaults
      (exConfig false) exEmbed (startState exFaults exNullFile) "C1").state.messageIDs.get?
      "C1" = none ∧
    (loopBody exWorld (exConfig false) (startState exFaults exNullFile)).panicked = true ∧
    (newEvents (startState exFaults exNullFile)
      (loopBody exWorld (exConfig false) (startState exFaults exNullFile)).state).countP
      Event.isSave = 0 := by
  refine ⟨rfl, rfl, rfl, rfl, rfl, rfl, rfl⟩

/-- C2. A channel with a stored id whose edit succeeds and returns the message that was
edited: the reconciliation does not panic, makes exactly one edit call and no send, list
or delete call, and the id stored afterwards, like the whole map, is the same as before.
A second reconciliation whose edit succeeds in the same way leaves the stored id as it
was before the first. -/
theorem reconcile_edit_success_keeps_stored_id (dg : Session) (faults : FileFaults)
    (c : Config) (embed : MessageEmbed) (st : LoopState) (channelID msgID : String)
    (msg : Message)
    (hstored : st.messageIDs.get? channelID = some msgID)
    (hedit : dg.ChannelMessageEditEmbed st.events channelID msgID embed = Result.ok msg)
    (hid : msg.ID = msgID) :
    (reconcileChannel dg faults c embed st channelID).panicked = false ∧
    (newEvents st (reconcileChannel dg faults c embed st channelID).state).countP
      Event.isEdit = 1 ∧
    (newEvents st (reconcileChannel dg faults c embed st channelID).state).countP
      Event.isSend = 0 ∧
    (newEvents st (reconcileChannel dg faults c embed st channelID).state).countP
      Event.isList = 0 ∧
    (newEvents st (reconcileChannel dg faults c embed st channelID).state).countP
      Event.isDelete = 0 ∧
    (reconcileChannel dg faults c embed st channelID).state.messageIDs.get? channelID
      = st.messageIDs.get? channelID ∧
    (reconcileChannel dg faults c embed st channelID).state.messageIDs = st.messageIDs ∧
    (∀ (c2 : Config) (embed2 : MessageEmbed) (msg2 : Message),
      dg.ChannelMessageEditEmbed (reconcileChannel dg faults c embed st channelID).state.events
        channelID msgID embed2 = Result.ok msg2 →
      msg2.ID = msgID →
      (reconcileChannel dg faults c2 embed2
        (reconcileChannel dg faults c embed st channelID).state channelID).panicked = false ∧
      (reconcileChannel dg faults c2 embed2
        (reconcileChannel dg faults c embed st channelID).state
        channelID).state.messageIDs.get? channelID = st.messageIDs.get? channelID) := by
  obtain ⟨⟨saves, hnew, hs⟩, hpanic, hentry, hsame⟩ :=
    reconcileChannel_edited_summary dg faults c embed st channelID msgID msg hstored hedit
  refine ⟨hpanic, ?_, ?_, ?_, ?_, ?_, hsame hid, ?_⟩
  · rw [hnew, List.countP_cons, countP_eq_zero_of_saves saves _ hs isSave_not_isEdit]
    simp [Event.isEdit]
  · rw [hnew, List.countP_cons, countP_eq_zero_of_saves saves _ hs isSave_not_isSend]
    simp [Event.isSend]
  · rw [hnew, List.countP_cons, countP_eq_zero_of_saves saves _ hs isSave_not_isList]
    simp [Event.isList]
  · rw [hnew, List.countP_cons, countP_eq_zero_of_saves saves _ hs isSave_not_isDelete]
    simp [Event.isDelete]
  · rw [hsame hid]
  · intro c2 embed2 msg2 hedit2 hid2
    have hstored2 : (reconcileChannel dg faults c embed st channelID).state.messageIDs.get?
        channelID = some msgID := by rw [hsame hid]; exact hstored
    obtain ⟨_, hpanic2, hentry2, _⟩ := reconcileChannel_edited_summary dg faults c2 embed2 _
      channelID msgID msg2 hstored2 hedit2
    exact ⟨hpanic2, by rw [hentry2, hid2, hstored]⟩

/-- C2 on the map `{C1: M1}` with an edit that returns `M1`: the map stays `{C1: M1}`,
after one reconciliation and after two. -/
theorem reconcile_edit_success_keeps_stored_id_witness :
    (exState [("C1", "M1")]).messageIDs.get? "C1" = some "M1" ∧
    (reconcileChannel (exSession (Result.ok ⟨"M1"⟩) (Result.err "unused")) exFaults
      (exConfig false) exEmbed (exState [("C1", "M1")]) "C1").state.messageIDs
      = MessageIDs.map [("C1", "M1")] ∧
    (reconcileChannel (exSession (Result.ok ⟨"M1"⟩) (Result.err "unused")) exFaults
      (exConfig false) exEmbed
      (reconcileChannel (exSession (Result.ok ⟨"M1"⟩) (Result.err "unused")) exFaults
        (exConfig false) exEmbed (exState [("C1", "M1")]) "C1").state
      "C1").state.messageIDs.get? "C1" = (exState [("C1", "M1")]).messageIDs.get? "C1" :=
  have h := reconcile_edit_success_keeps_stored_id
    (exSession (Result.ok ⟨"M1"⟩) (Result.err "unused")) exFaults (exConfig false) exEmbed
    (exState [("C1", "M1")]) "C1" "M1" ⟨"M1"⟩ rfl rfl rfl
  ⟨rfl, h.2.2.2.2.2.2.1, (h.2.2.2.2.2.2.2 (exConfig false) exEmbed ⟨"M1"⟩ rfl rfl).2⟩

/-- C3. A channel with a stored id whose edit fails with a text that contains
"Unknown Message", and whose send then succeeds with id `M`: the reconciliation does not
panic, makes exactly one send call, and the id stored afterwards is `M`. Without
`DeleteOldEmbeds` there is no list and no delete call. The map `{channelID: msgID}`
becomes `{channelID: M}`. -/
theorem reconcile_stale_id_is_replaced (dg : Session) (faults : FileFaults) (c : Config)
    (embed : MessageEmbed) (st : LoopState) (channelID msgID text M : String)
    (hstored : st.messageIDs.get? channelID = some msgID)
    (hedit : dg.ChannelMessageEditEmbed st.events channelID msgID embed = Result.err text)
    (hgone : stringsContains text "Unknown Message" = true)
    (hsend : dg.ChannelMessageSendEmbed
      (deleteOldEmbeds dg c.DeleteOldEmbeds channelID
        (st.events ++ [Event.edit channelID msgID embed (Result.err text)])) channelID embed
        = Result.ok ⟨M⟩) :
    (reconcileChannel dg faults c embed st channelID).panicked = false ∧
    (newEvents st (reconcileChannel dg faults c embed st channelID).state).countP
      Event.isSend = 1 ∧
    (reconcileChannel dg faults c embed st channelID).state.messageIDs.get? channelID
      = some M ∧
    (c.DeleteOldEmbeds = false →
      (newEvents st (reconcileChannel dg faults c embed st channelID).state).countP
        Event.isList = 0 ∧
      (newEvents st (reconcileChannel dg faults c embed st channelID).state).countP
        Event.isDelete = 0) ∧
    (st.messageIDs = MessageIDs.map [(channelID, msgID)] →
      (reconcileChannel dg faults c embed st channelID).state.messageIDs
        = MessageIDs.map [(channelID, M)]) := by
  obtain ⟨entries, hmap, _⟩ := MessageIDs.map_of_get? st.messageIDs channelID msgID hstored
  rw [deleteOldEmbeds_eq] at hsend
  rw [reconcileChannel_stale dg faults c embed st channelID msgID text hstored hedit hgone]
  obtain ⟨saves, hnew, hs, hok, _⟩ := sendThenUpdate_summary dg faults c embed st channelID
    msgID [Event.edit channelID msgID embed (Result.err text)] (Or.inr hstored)
  have hmsg := sendThenUpdate_messageIDs dg faults c embed st channelID msgID
    (st.events ++ [Event.edit channelID msgID embed (Result.err text)]) ⟨M⟩ entries hmap hsend
  obtain ⟨hpanic, hentry, _⟩ := hok entries ⟨M⟩ hmap hsend
  rw [hnew]
  refine ⟨hpanic, ?_, hentry, ?_, ?_⟩
  · simp [List.countP_append, List.countP_cons, purge_countP_isSend, Event.isSend,
      countP_eq_zero_of_saves saves _ hs isSave_not_isSend]
  · intro hoff
    rw [hoff]
    constructor
    · simp [List.countP_append, List.countP_cons, countP_purge_disabled, Event.isList,
        countP_eq_zero_of_saves saves _ hs isSave_not_isList]
    · simp [List.countP_append, List.countP_cons, countP_purge_disabled, Event.isDelete,
        countP_eq_zero_of_saves saves _ hs isSave_not_isDelete]
  · intro hsingle
    have he : entries = [(channelID, msgID)] := by
      rw [hmap] at hsingle
      injection hsingle
    rw [hmsg, hmap, he]
    by_cases h : msgID = "" ∨ msgID ≠ M
    · simp [h, GoMap.set]
    · have h2 : msgID = M := by
        simp only [not_or, not_not] at h
        exact h.2
      rw [if_neg h, h2]

/-- C3 on the map `{C1: M1}`, with `DeleteOldEmbeds` off and a send that returns `M9`:
the map becomes `{C1: M9}`, and there is no delete call. -/
theorem reconcile_stale_id_is_replaced_witness :
    stringsContains exUnknownMessage "Unknown Message" = true ∧
    (reconcileChannel (exSession (Result.err exUnknownMessage) (Result.ok ⟨"M9"⟩)) exFaults
      (exConfig false) exEmbed (exState [("C1", "M1")]) "C1").state.messageIDs
      = MessageIDs.map [("C1", "M9")] ∧
    (newEvents (exState [("C1", "M1")])
      (reconcileChannel (exSession (Result.err exUnknownMessage) (Result.ok ⟨"M9"⟩)) exFaults
        (exConfig false) exEmbed (exState [("C1", "M1")]) "C1").state).countP
      Event.isDelete = 0 :=
  have h := reconcile_stale_id_is_replaced
    (exSession (Result.err exUnknownMessage) (Result.ok ⟨"M9"⟩)) exFaults (exConfig false)
    exEmbed (exState [("C1", "M1")]) "C1" "M1" exUnknownMessage "M9" rfl rfl (by decide) rfl
  ⟨by decide, h.2.2.2.2 rfl, (h.2.2.2.1 rfl).2⟩

/-- C4. A channel with a stored id whose edit fails with a text that does not contain
"Unknown Message": the reconciliation is done without panic, adds the edit call and
nothing else (no send, list, delete or save call), leaves the whole map and the files as
they were, and the loop goes on with the next channel from that state. -/
theorem reconcile_other_edit_error_skips_channel (dg : Session) (faults : FileFaults)
    (c : Config) (embed : MessageEmbed) (st : LoopState) (channelID msgID text : String)
    (hstored : st.messageIDs.get? channelID = some msgID)
    (hedit : dg.ChannelMessageEditEmbed st.events channelID msgID embed = Result.err text)
    (hother : stringsContains text "Unknown Message" = false) :
    (reconcileChannel dg faults c embed st channelID).panicked = false ∧
    newEvents st (reconcileChannel dg faults c embed st channelID).state
      = [Event.edit channelID msgID embed (Result.err text)] ∧
    (newEvents st (reconcileChannel dg faults c embed st channelID).state).countP
      Event.isSend = 0 ∧
    (newEvents st (reconcileChannel dg faults c embed st channelID).state).countP
      Event.isList = 0 ∧
    (newEvents st (reconcileChannel dg faults c embed st channelID).state).countP
      Event.isDelete = 0 ∧
    (newEvents st (reconcileChannel dg faults c embed st channelID).state).countP
      Event.isSave = 0 ∧
    (reconcileChannel dg faults c embed st channelID).state.messageIDs = st.messageIDs ∧
    (reconcileChannel dg faults c embed st channelID).state.files = st.files ∧
    (∀ rest : List String,
      reconcileChannels dg faults c embed st (channelID :: rest) =
        reconcileChannels dg faults c embed
          { st with events := st.events ++ [Event.edit channelID msgID embed (Result.err text)] }
          rest) := by
  have hrec := reconcileChannel_editFailed dg faults c embed st channelID msgID text hstored
    hedit hother
  have hnew : newEvents st (reconcileChannel dg faults c embed st channelID).state
      = [Event.edit channelID msgID embed (Result.err text)] := by
    apply newEvents_append
    rw [hrec]
    rfl
  refine ⟨by rw [hrec]; rfl, hnew, ?_, ?_, ?_, ?_, ?_, ?_, ?_⟩
  · rw [hnew]; rfl
  · rw [hnew]; rfl
  · rw [hnew]; rfl
  · rw [hnew]; rfl
  · rw [hrec]; rfl
  · rw [hrec]; rfl
  · intro rest
    simp only [reconcileChannels, hrec]

/-- C4 on the map `{C1: M1}` with an edit that fails with a server error: the map stays
`{C1: M1}`. -/
theorem reconcile_other_edit_error_skips_channel_witness :
    stringsContains "HTTP 500 Internal Server Error" "Unknown Message" = false ∧
    (reconcileChannel (exSession (Result.err "HTTP 500 Internal Server Error")
      (Result.ok ⟨"M9"⟩)) exFaults (exConfig true) exEmbed (exState [("C1", "M1")])
      "C1").state.messageIDs = MessageIDs.map [("C1", "M1")] :=
  ⟨by decide, (reconcile_other_edit_error_skips_channel
    (exSession (Result.err "HTTP 500 Internal Server Error") (Result.ok ⟨"M9"⟩)) exFaults
    (exConfig true) exEmbed (exState [("C1", "M1")]) "C1" "M1"
    "HTTP 500 Internal Server Error" rfl rfl (by decide)).2.2.2.2.2.2.1⟩

/-- C5. A pass in which the connection opens and `gatherStats` returns an error: the pass
is done without panic, the map and the files are as before, the new events are API calls
of `gatherStats` followed by one sleep of `ErrorRefreshInterval` seconds, and none of them
is a call on the Discord session or a save. -/
theorem aggregation_failure_sleeps_error_interval {σ : Type} [Inhabited σ] (w : World σ)
    (c : Config) (st : LoopState) (db : Database σ) (err : String)
    (hconn : w.DbConn st.events = Result.ok db)
    (hfail : (gatherStats db w.api c st.events).2.1 = some err) :
    (loopBody w c st).panicked = false ∧
    (loopBody w c st).state.messageIDs = st.messageIDs ∧
    (loopBody w c st).state.files = st.files ∧
    (∃ calls : List Event,
      newEvents st (loopBody w c st).state
        = calls ++ [Event.sleep (seconds c.ErrorRefreshInterval)] ∧
      (∀ e ∈ calls, e.isApi = true)) ∧
    (newEvents st (loopBody w c st).state).countP Event.isTransport = 0 ∧
    (newEvents st (loopBody w c st).state).countP Event.isSave = 0 := by
  obtain ⟨calls, hcalls, hapi, _⟩ := gatherStats_events db w.api c st.events
  have hbody : loopBody w c st = Outcome.done
      { st with events := st.events ++ calls ++ [Event.sleep (seconds c.ErrorRefreshInterval)] } := by
    unfold loopBody
    simp only [hconn, hfail, hcalls]
  have hnew : newEvents st (loopBody w c st).state
      = calls ++ [Event.sleep (seconds c.ErrorRefreshInterval)] := by
    apply newEvents_append
    rw [hbody]
    simp [Outcome.state]
  refine ⟨by rw [hbody]; rfl, by rw [hbody]; rfl, by rw [hbody]; rfl, ⟨calls, hnew, hapi⟩,
    ?_, ?_⟩
  · rw [hnew, List.countP_append, countP_eq_zero_of_kind calls _ _ hapi (by
      intro e h
      cases e <;> simp [Event.isApi, Event.isTransport, Event.isEdit, Event.isList,
        Event.isDelete, Event.isSend] at h ⊢)]
    rfl
  · rw [hnew, List.countP_append, countP_eq_zero_of_kind calls _ _ hapi (by
      intro e h
      cases e <;> simp [Event.isApi, Event.isSave] at h ⊢)]
    rfl

/-- C5 on a world whose gym query fails, from the map `{C1: M1}`: the only new event is a
sleep of 30 seconds, the `ErrorRefreshInterval` of the configuration. -/
theorem aggregation_failure_sleeps_error_interval_witness :
    (gatherStats exBrokenDatabase exBrokenWorld.api (exConfig true)
      (exState [("C1", "M1")]).events).2.1 = some "Error 1146: table does not exist" ∧
    (loopBody exBrokenWorld (exConfig true) (exState [("C1", "M1")])).state.messageIDs
      = MessageIDs.map [("C1", "M1")] ∧
    (newEvents (exState [("C1", "M1")])
      (loopBody exBrokenWorld (exConfig true) (exState [("C1", "M1")])).state).countP
      Event.isTransport = 0 :=
  ⟨rfl, (aggregation_failure_sleeps_error_interval exBrokenWorld (exConfig true)
      (exState [("C1", "M1")]) exBrokenDatabase "Error 1146: table does not exist" rfl
      rfl).2.1,
    (aggregation_failure_sleeps_error_interval exBrokenWorld (exConfig true)
      (exState [("C1", "M1")]) exBrokenDatabase "Error 1146: table does not exist" rfl
      rfl).2.2.2.2.1⟩

/-- C6. With `DeleteOldEmbeds` on, when a message has to be created (no stored id, or an
edit that failed with "Unknown Message"): the new events are the failed edit if there was
one, then exactly one list call, with limit 100, then one delete call per message that
the list call returned (none when it failed), in order, then exactly one send call, then
saves only. Nothing is assumed about the results of the list and delete calls, nor
about the map being nil or not. -/
theorem cleanup_deletes_each_listed_message_before_send (dg : Session) (faults : FileFaults)
    (c : Config) (embed : MessageEmbed) (st : LoopState) (channelID : String)
    (hon : c.DeleteOldEmbeds = true)
    (hcreate : st.messageIDs.get? channelID = none ∨
      ∃ msgID text, st.messageIDs.get? channelID = some msgID ∧
        dg.ChannelMessageEditEmbed st.events channelID msgID embed = Result.err text ∧
        stringsContains text "Unknown Message" = true) :
    ∃ (pre ds saves : List Event) (sres : Result Message),
      newEvents st (reconcileChannel dg faults c embed st channelID).state =
        pre ++ Event.list channelID 100 (dg.ChannelMessages (st.events ++ pre) channelID 100)
          :: ds ++ Event.send channelID embed sres :: saves ∧
      (∀ e ∈ pre, e.isEdit = true) ∧
      ds.map Event.deleted =
        (match dg.ChannelMessages (st.events ++ pre) channelID 100 with
          | Result.ok messages => messages.map (fun msg => some (channelID, msg.ID))
          | Result.err _ => []) ∧
      (∀ e ∈ ds, e.isDelete = true) ∧
      (∀ e ∈ saves, e.isSave = true) ∧
      (newEvents st (reconcileChannel dg faults c embed st channelID).state).countP Event.isList = 1 ∧
      (newEvents st (reconcileChannel dg faults c embed st channelID).state).countP Event.isSend = 1 ∧
      (newEvents st (reconcileChannel dg faults c embed st channelID).state).countP Event.isDelete
        = ds.length := by
  have hcount : ∀ (pre ds saves : List Event) (lres : Result (List Message))
      (sres : Result Message), (∀ e ∈ pre, e.isEdit = true) → (∀ e ∈ ds, e.isDelete = true) →
      (∀ e ∈ saves, e.isSave = true) →
      (pre ++ Event.list channelID 100 lres :: ds ++
        Event.send channelID embed sres :: saves).countP Event.isList = 1 ∧
      (pre ++ Event.list channelID 100 lres :: ds ++
        Event.send channelID embed sres :: saves).countP Event.isSend = 1 ∧
      (pre ++ Event.list channelID 100 lres :: ds ++
        Event.send channelID embed sres :: saves).countP Event.isDelete = ds.length := by
    intro pre ds saves lres sres hpre hds hs
    have hdd : ds.countP Event.isDelete = ds.length := by
      rw [List.countP_eq_length]
      exact hds
    refine ⟨?_, ?_, ?_⟩
    · rw [List.countP_append, List.countP_append, List.countP_cons, List.countP_cons,
        countP_eq_zero_of_kind pre _ _ hpre isEdit_not_isList,
        countP_eq_zero_of_kind ds _ _ hds isDelete_not_isList,
        countP_eq_zero_of_saves saves _ hs isSave_not_isList]
      rfl
    · rw [List.countP_append, List.countP_append, List.countP_cons, List.countP_cons,
        countP_eq_zero_of_kind pre _ _ hpre isEdit_not_isSend,
        countP_eq_zero_of_kind ds _ _ hds isDelete_not_isSend,
        countP_eq_zero_of_saves saves _ hs isSave_not_isSend]
      rfl
    · rw [List.countP_append, List.countP_append, List.countP_cons, List.countP_cons,
        countP_eq_zero_of_kind pre _ _ hpre isEdit_not_isDelete, hdd,
        countP_eq_zero_of_saves saves _ hs isSave_not_isDelete]
      simp [Event.isDelete]
  rcases hcreate with habsent | ⟨msgID, text, hstored, hedit, hgone⟩
  · rw [reconcileChannel_absent dg faults c embed st channelID habsent]
    obtain ⟨ds, saves, sres, hnew, hds, hdel, hs⟩ := sendThenUpdate_cleanup dg faults c embed
      st channelID "" [] (Or.inl rfl) hon
    simp only [List.append_nil, List.nil_append] at hnew hds
    have hpre : ∀ e ∈ ([] : List Event), e.isEdit = true := by simp
    refine ⟨[], ds, saves, sres, by simpa using hnew, hpre, by simpa using hds, hdel, hs, ?_⟩
    rw [hnew]
    simpa using hcount [] ds saves _ sres hpre hdel hs
  · rw [reconcileChannel_stale dg faults c embed st channelID msgID text hstored hedit hgone]
    obtain ⟨ds, saves, sres, hnew, hds, hdel, hs⟩ := sendThenUpdate_cleanup dg faults c embed
      st channelID msgID [Event.edit channelID msgID embed (Result.err text)]
      (Or.inr hstored) hon
    have hpre : ∀ e ∈ [Event.edit channelID msgID embed (Result.err text)],
        e.isEdit = true := by simp [Event.isEdit]
    refine ⟨_, ds, saves, sres, hnew, hpre, hds, hdel, hs, ?_⟩
    rw [hnew]
    exact hcount _ ds saves _ sres hpre hdel hs

/-- C6 on the empty map, where the channel lists `old1` and `old2` and deleting `old2`
fails: the new events are one list call, two delete calls, one send and one save. -/
theorem cleanup_deletes_each_listed_message_before_send_witness :
    (exConfig true).DeleteOldEmbeds = true ∧
    ∃ (pre ds saves : List Event) (sres : Result Message),
      newEvents (exState []) (reconcileChannel
        (exSession (Result.err "unused") (Result.ok ⟨"M"⟩)) exFaults (exConfig true) exEmbed
        (exState []) "C1").state =
        pre ++ Event.list "C1" 100 (Result.ok [⟨"old1"⟩, ⟨"old2"⟩]) :: ds ++
          Event.send "C1" exEmbed sres :: saves ∧
      ds.map Event.deleted = [some ("C1", "old1"), some ("C1", "old2")] :=
  ⟨rfl, by
    obtain ⟨pre, ds, saves, sres, h1, _, h3, _⟩ :=
      cleanup_deletes_each_listed_message_before_send
        (exSession (Result.err "unused") (Result.ok ⟨"M"⟩)) exFaults (exConfig true) exEmbed
        (exState []) "C1" rfl (Or.inl rfl)
    exact ⟨pre, ds, saves, sres, h1, h3⟩⟩

/-- What holds on a map that is not nil, whatever it held for the channel before (nothing,
the id returned, or another id): when the last session call of a reconciliation is an
edit or a send that succeeded, the reconciliation does not panic and the entry of the
channel afterwards is the id of the message it returned. -/
theorem entry_is_id_of_last_successful_call_on_map (dg : Session) (faults : FileFaults)
    (c : Config) (embed : MessageEmbed) (st : LoopState) (channelID : String) (e : Event)
    (msg : Message) (entries : GoMap String)
    (hmap : st.messageIDs = MessageIDs.map entries)
    (hlast : lastTransport
      (newEvents st (reconcileChannel dg faults c embed st channelID).state) = some e)
    (hret : e.returned = some msg) :
    (reconcileChannel dg faults c embed st channelID).panicked = false ∧
    (reconcileChannel dg faults c embed st channelID).state.messageIDs.get? channelID
      = some msg.ID := by
  cases hget : st.messageIDs.get? channelID with
  | none =>
    rw [reconcileChannel_absent dg faults c embed st channelID hget] at hlast ⊢
    obtain ⟨saves, hnew, hs, hok, _⟩ := sendThenUpdate_summary dg faults c embed st channelID
      "" [] (Or.inl rfl)
    simp only [List.append_nil, List.nil_append] at hnew hok
    rw [hnew, lastTransport_append_cons _ saves _ (by rfl) hs] at hlast
    injection hlast with hlast
    subst hlast
    cases hres : dg.ChannelMessageSendEmbed
      (st.events ++ purgeEvents dg c.DeleteOldEmbeds channelID st.events) channelID embed with
    | err text => rw [hres] at hret; simp [Event.returned] at hret
    | ok msg0 =>
      rw [hres] at hret
      simp only [Event.returned, Option.some.injEq] at hret
      subst hret
      exact ⟨(hok entries msg0 hmap hres).1, (hok entries msg0 hmap hres).2.1⟩
  | some msgID =>
    cases hedit : dg.ChannelMessageEditEmbed st.events channelID msgID embed with
    | ok msg0 =>
      obtain ⟨⟨saves, hnew, hs⟩, hpanic, hentry, _⟩ :=
        reconcileChannel_edited_summary dg faults c embed st channelID msgID msg0 hget hedit
      rw [hnew] at hlast
      have h := lastTransport_append_cons [] saves
        (Event.edit channelID msgID embed (Result.ok msg0)) rfl hs
      simp only [List.nil_append] at h
      rw [h] at hlast
      injection hlast with hlast
      subst hlast
      simp only [Event.returned, Option.some.injEq] at hret
      subst hret
      exact ⟨hpanic, hentry⟩
    | err text =>
      cases hgone : stringsContains text "Unknown Message" with
      | false =>
        have hrec := reconcileChannel_editFailed dg faults c embed st channelID msgID text
          hget hedit hgone
        have hnew := (newEvents_append st
          (reconcileChannel dg faults c embed st channelID).state
          [Event.edit channelID msgID embed (Result.err text)] (by rw [hrec]; rfl))
        rw [hnew] at hlast
        simp only [lastTransport, List.filter, Event.isTransport, Event.isEdit, Bool.true_or,
          List.getLast?_singleton, Option.some.injEq] at hlast
        subst hlast
        simp [Event.returned] at hret
      | true =>
        rw [reconcileChannel_stale dg faults c embed st channelID msgID text hget hedit hgone]
          at hlast ⊢
        obtain ⟨saves, hnew, hs, hok, _⟩ := sendThenUpdate_summary dg faults c embed st
          channelID msgID [Event.edit channelID msgID embed (Result.err text)] (Or.inr hget)
        rw [hnew, lastTransport_append_cons _ saves _ (by rfl) hs] at hlast
        injection hlast with hlast
        subst hlast
        cases hres : dg.ChannelMessageSendEmbed
          (st.events ++ [Event.edit channelID msgID embed (Result.err text)] ++
            purgeEvents dg c.DeleteOldEmbeds channelID
              (st.events ++ [Event.edit channelID msgID embed (Result.err text)]))
          channelID embed with
        | err text2 => rw [hres] at hret; simp [Event.returned] at hret
        | ok msg0 =>
          rw [hres] at hret
          simp only [Event.returned, Option.some.injEq] at hret
          subst hret
          exact ⟨(hok entries msg0 hmap hres).1, (hok entries msg0 hmap hres).2.1⟩

/-- C7, at the input where the code fails. The state file holds `null`, so the map is
nil and channel `C1` has no entry. With clean-up on, the reconciliation lists, deletes
and sends; the send is the last session call and succeeds returning `M`. The assignment
at main.go 273 then panics, and `C1` still has no entry. -/
theorem null_state_file_leaves_no_entry_after_successful_send :
    (startState exFaults exNullFile).messageIDs = MessageIDs.nil ∧
    lastTransport (newEvents (startState exFaults exNullFile)
      (reconcileChannel (exSession (Result.err "unused") (Result.ok ⟨"M"⟩)) exFaults
        (exConfig true) exEmbed (startState exFaults exNullFile) "C1").state)
      = some (Event.send "C1" exEmbed (Result.ok ⟨"M"⟩)) ∧
    (Event.send "C1" exEmbed (Result.ok ⟨"M"⟩)).returned = some ⟨"M"⟩ ∧
    (reconcileChannel (exSession (Result.err "unused") (Result.ok ⟨"M"⟩)) exFaults
      (exConfig true) exEmbed (startState exFaults exNullFile) "C1").panicked = true ∧
    (reconcileChannel (exSession (Result.err "unused") (Result.ok ⟨"M"⟩)) exFaults
      (exConfig true) exEmbed (startState exFaults exNullFile) "C1").state.messageIDs.get?
      "C1" = none := by
  refine ⟨rfl, by rfl, rfl, by rfl, by rfl⟩

/-- C10. With `IncludeActiveCounts` on, when every query and both API requests succeed,
`gatherStats` returns no error, `HundoActiveCount` is the number of distinct spawn ids in
the answer to (15, 15), `NundoActiveCount` the number of distinct spawn ids in the answer
to (0, 0), and the API is called exactly for (15, 15) and then (0, 0). With
`IncludeActiveCounts` off both counts are zero and no API call is made. -/
theorem gatherStats_active_counts {σ : Type} [Inhabited σ] (db : Database σ) (api : Api)
    (config : Config) (events : List Event) :
    (config.IncludeActiveCounts = true → db.allSucceed →
      ∀ hundo nundo : List ApiResponse,
        api events 15 15 = Result.ok hundo →
        api (events ++ [Event.api 15 15]) 0 0 = Result.ok nundo →
        (gatherStats db api config events).2.1 = none ∧
        (gatherStats db api config events).1.HundoActiveCount = distinctSpawnIds hundo ∧
        (gatherStats db api config events).1.NundoActiveCount = distinctSpawnIds nundo ∧
        (gatherStats db api config events).2.2 = events ++ [Event.api 15 15, Event.api 0 0]) ∧
    (config.IncludeActiveCounts = false →
      (gatherStats db api config events).1.HundoActiveCount = 0 ∧
      (gatherStats db api config events).1.NundoActiveCount = 0 ∧
      (gatherStats db api config events).2.2 = events) := by
  constructor
  · intro hon hall hundo nundo hh hn
    obtain ⟨h1, h2, h3, h4, h5, h6, h7, h8, h9⟩ := hall
    unfold gatherStats
    simp only [h1, h2, h3, h4, h5, h6, h7, h8, h9, hon, hh, hn, if_true, countSpawnIds_eq]
    simp
  · intro hoff
    obtain ⟨calls, hcalls, _, hnone⟩ := gatherStats_events db api config events
    obtain ⟨hh, hn⟩ := gatherStats_counts_off db api config events hoff
    refine ⟨hh, hn, ?_⟩
    rw [hcalls, hnone hoff]
    simp

/-- C10 on an answer with the spawn ids 4, 9, 4 for (15, 15) and an empty answer for
(0, 0): the counts are 2 and 0; with `IncludeActiveCounts` off the events stay empty. -/
theorem gatherStats_active_counts_witness :
    (gatherStats exDatabase exApi { exConfig false with IncludeActiveCounts := true }
      []).1.HundoActiveCount = 2 ∧
    (gatherStats exDatabase exApi { exConfig false with IncludeActiveCounts := true }
      []).1.NundoActiveCount = 0 ∧
    (gatherStats exDatabase exApi (exConfig false) []).2.2 = [] :=
  have h := (gatherStats_active_counts exDatabase exApi
    { exConfig false with IncludeActiveCounts := true } []).1 rfl
    ⟨rfl, rfl, rfl, rfl, rfl, rfl, rfl, rfl, rfl⟩ [⟨4⟩, ⟨9⟩, ⟨4⟩] [] rfl rfl
  ⟨h.2.1.trans (by decide), h.2.2.1.trans (by decide),
    ((gatherStats_active_counts exDatabase exApi (exConfig false) []).2 rfl).2.2⟩


/-- C8, as the code has it, on a map that is not nil. When a reconciliation creates a
message (its send succeeds with id `M`), it does not panic, the entry afterwards is `M`,
and the map is saved once if the channel had no stored id, or the empty string, or an id
other than `M`; when `M` is the non-empty id already stored there is no save and the map
is unchanged. -/
theorem created_message_is_saved_iff_id_is_new (dg : Session) (faults : FileFaults)
    (c : Config) (embed : MessageEmbed) (st : LoopState) (channelID M : String)
    (entries : GoMap String)
    (hmap : st.messageIDs = MessageIDs.map entries)
    (hsent : Event.send channelID embed (Result.ok ⟨M⟩) ∈
      newEvents st (reconcileChannel dg faults c embed st channelID).state) :
    (reconcileChannel dg faults c embed st channelID).panicked = false ∧
    (newEvents st (reconcileChannel dg faults c embed st channelID).state).countP
      Event.isSave =
      (if storedID st.messageIDs channelID = "" ∨ storedID st.messageIDs channelID ≠ M
        then 1 else 0) ∧
    (reconcileChannel dg faults c embed st channelID).state.messageIDs.get? channelID
      = some M ∧
    (¬ (storedID st.messageIDs channelID = "" ∨ storedID st.messageIDs channelID ≠ M) →
      (reconcileChannel dg faults c embed st channelID).state.messageIDs = st.messageIDs) := by
  have hsaves : ∀ saves : List Event, (∀ e ∈ saves, e.isSave = true) →
      Event.send channelID embed (Result.ok ⟨M⟩) ∉ saves := by
    intro saves hs hmem
    exact Bool.false_ne_true (hs _ hmem)
  have hpurge : ∀ en evs, Event.send channelID embed (Result.ok ⟨M⟩) ∉
      purgeEvents dg en channelID evs := by
    intro en evs hmem
    rcases purgeEvents_kind dg en channelID evs _ hmem with h | h <;>
      exact Bool.false_ne_true h
  have htail : ∀ (msgID : String) (pre : List Event),
      (msgID = "" ∨ st.messageIDs.get? channelID = some msgID) →
      (∀ e ∈ pre, e.isEdit = true) →
      Event.send channelID embed (Result.ok ⟨M⟩) ∈
        newEvents st
          (sendThenUpdate dg faults c embed st channelID msgID (st.events ++ pre)).state →
      (sendThenUpdate dg faults c embed st channelID msgID
        (st.events ++ pre)).panicked = false ∧
      (newEvents st (sendThenUpdate dg faults c embed st channelID msgID
        (st.events ++ pre)).state).countP Event.isSave
        = (if msgID = "" ∨ msgID ≠ M then 1 else 0) ∧
      (sendThenUpdate dg faults c embed st channelID msgID
        (st.events ++ pre)).state.messageIDs.get? channelID = some M ∧
      (¬ (msgID = "" ∨ msgID ≠ M) →
        (sendThenUpdate dg faults c embed st channelID msgID
          (st.events ++ pre)).state.messageIDs = st.messageIDs) := by
    intro msgID pre hlookup hpre hmem
    obtain ⟨saves, hnew, hs, hok, _⟩ := sendThenUpdate_summary dg faults c embed st channelID
      msgID pre hlookup
    rw [hnew] at hmem ⊢
    have hres : dg.ChannelMessageSendEmbed
        (st.events ++ pre ++ purgeEvents dg c.DeleteOldEmbeds channelID (st.events ++ pre))
        channelID embed = Result.ok ⟨M⟩ := by
      simp only [List.mem_append, List.mem_cons] at hmem
      rcases hmem with (hmem | hmem) | hmem | hmem
      · exact absurd (hpre _ hmem) Bool.false_ne_true
      · exact absurd hmem (hpurge _ _)
      · injection hmem with _ _ h
        exact h.symm
      · exact absurd hmem (hsaves saves hs)
    obtain ⟨hpanic, hentry, hlen⟩ := hok entries ⟨M⟩ hmap hres
    have hmsg := sendThenUpdate_messageIDs dg faults c embed st channelID msgID
      (st.events ++ pre) ⟨M⟩ entries hmap hres
    refine ⟨hpanic, ?_, hentry, ?_⟩
    · have hprez : pre.countP Event.isSave = 0 :=
        countP_eq_zero_of_kind pre _ _ hpre isEdit_not_isSave
      rw [List.countP_append, List.countP_append, List.countP_cons, hprez, purge_countP_isSave,
        countP_isSave_of_saves saves hs, hlen]
      simp [Event.isSave]
    · intro hno
      rw [hmsg, if_neg hno]
  cases hget : st.messageIDs.get? channelID with
  | none =>
    rw [reconcileChannel_absent dg faults c embed st channelID hget] at hsent ⊢
    have h := htail "" [] (Or.inl rfl) (by simp) (by simpa using hsent)
    simpa [storedID, hget] using h
  | some msgID =>
    cases hedit : dg.ChannelMessageEditEmbed st.events channelID msgID embed with
    | ok msg0 =>
      obtain ⟨⟨saves, hnew, hs⟩, _, _, _⟩ :=
        reconcileChannel_edited_summary dg faults c embed st channelID msgID msg0 hget hedit
      rw [hnew] at hsent
      rcases List.mem_cons.mp hsent with h | h
      · cases h
      · exact absurd h (hsaves saves hs)
    | err text =>
      cases hgone : stringsContains text "Unknown Message" with
      | false =>
        have hrec := reconcileChannel_editFailed dg faults c embed st channelID msgID text
          hget hedit hgone
        have hnew := (newEvents_append st
          (reconcileChannel dg faults c embed st channelID).state
          [Event.edit channelID msgID embed (Result.err text)] (by rw [hrec]; rfl))
        rw [hnew] at hsent
        simp at hsent
      | true =>
        rw [reconcileChannel_stale dg faults c embed st channelID msgID text hget hedit hgone]
          at hsent ⊢
        have h := htail msgID [Event.edit channelID msgID embed (Result.err text)]
          (Or.inr hget) (by simp [Event.isEdit]) hsent
        simpa [storedID, hget] using h

/-- C8 on the map `{C1: M1}` with a stale id and a send that returns `M9`: one save. -/
theorem created_message_is_saved_iff_id_is_new_witness :
    (exState [("C1", "M1")]).messageIDs = MessageIDs.map [("C1", "M1")] ∧
    (newEvents (exState [("C1", "M1")])
      (reconcileChannel (exSession (Result.err exUnknownMessage) (Result.ok ⟨"M9"⟩)) exFaults
        (exConfig false) exEmbed (exState [("C1", "M1")]) "C1").state).countP
      Event.isSave = 1 :=
  ⟨rfl, (created_message_is_saved_iff_id_is_new
    (exSession (Result.err exUnknownMessage) (Result.ok ⟨"M9"⟩)) exFaults (exConfig false)
    exEmbed (exState [("C1", "M1")]) "C1" "M9" [("C1", "M1")] rfl
    (List.mem_cons_of_mem _ (List.mem_cons_self _ _))).2.1⟩

/-- C8 as stated fails: on the map `{C1: M1}`, when the edit of `M1` fails with "Unknown
Message" and the send succeeds and returns the id `M1` again, the reconciliation is done
without panic, having made the edit call and the send call and no save call. -/
theorem no_save_when_send_returns_stored_id :
    stringsContains exUnknownMessage "Unknown Message" = true ∧
    (reconcileChannel (exSession (Result.err exUnknownMessage) (Result.ok ⟨"M1"⟩)) exFaults
      (exConfig false) exEmbed (exState [("C1", "M1")]) "C1").panicked = false ∧
    newEvents (exState [("C1", "M1")])
      (reconcileChannel (exSession (Result.err exUnknownMessage) (Result.ok ⟨"M1"⟩)) exFaults
        (exConfig false) exEmbed (exState [("C1", "M1")]) "C1").state
      = [Event.edit "C1" "M1" exEmbed (Result.err exUnknownMessage),
         Event.send "C1" exEmbed (Result.ok ⟨"M1"⟩)] ∧
    (newEvents (exState [("C1", "M1")])
      (reconcileChannel (exSession (Result.err exUnknownMessage) (Result.ok ⟨"M1"⟩)) exFaults
        (exConfig false) exEmbed (exState [("C1", "M1")]) "C1").state).countP
      Event.isSave = 0 := by
  refine ⟨by decide, by rfl, by rfl, by rfl⟩

/-- C9, as the code has it. When the file does not exist, `loadMessageIDs` returns the
map with no entry and, unless creating or writing fails, leaves the file holding the
empty JSON object. When the file holds a JSON object and can be opened, the map returned
has, for every key, the text of the last member with that key: the string itself for a
string value, the empty string for any other value; so for an object of strings it is the
deserialized map. `Decode` reports an error for an object exactly when some member is
neither a string nor `null`, and for a non-empty object the map returned is not empty
either way. When no JSON value can be read from the file, when the value in it is a
boolean, number, string or array, or when the file cannot be opened, the map with no
entry is returned. When the file holds `null`, `Decode` reports no error and the nil map
is returned. -/
theorem loadMessageIDs_result (faults : FileFaults) (events : List Event)
    (files : FileSystem) (filename : String) :
    (files.get? filename = none →
      (loadMessageIDs faults events files filename).1 = MessageIDs.map [] ∧
      (faults.create events filename = none → faults.encode events filename = none →
        (loadMessageIDs faults events files filename).2.get? filename
          = some (FileData.value (JSON.object [])))) ∧
    (∀ members : List (String × JSON),
      files.get? filename = some (FileData.value (JSON.object members)) →
      faults.openFile events filename = none →
      (∀ k : String, (loadMessageIDs faults events files filename).1.get? k
        = (members.reverse.lookup k).map JSON.text) ∧
      (loadMessageIDs faults events files filename).1 ≠ MessageIDs.nil ∧
      (members ≠ [] → (loadMessageIDs faults events files filename).1 ≠ MessageIDs.map []) ∧
      ((decode (MessageIDs.map []) (FileData.value (JSON.object members))).2 = none ↔
        ∀ kv ∈ members, kv.2.isStringOrNull = true)) ∧
    (∀ kvs : List (String × String),
      files.get? filename
        = some (FileData.value (JSON.object (kvs.map (fun kv => (kv.1, JSON.string kv.2))))) →
      faults.openFile events filename = none →
      ∀ k : String, (loadMessageIDs faults events files filename).1.get? k
        = kvs.reverse.lookup k) ∧
    (∀ data : FileData, files.get? filename = some data →
      (∀ members : List (String × JSON), data ≠ FileData.value (JSON.object members)) →
      data ≠ FileData.value JSON.null →
      (loadMessageIDs faults events files filename).1 = MessageIDs.map []) ∧
    (files.get? filename = some (FileData.value JSON.null) →
      faults.openFile events filename = none →
      (decode (MessageIDs.map []) (FileData.value JSON.null)).2 = none ∧
      (loadMessageIDs faults events files filename).1 = MessageIDs.nil) ∧
    (∀ (data : FileData) (err : String), files.get? filename = some data →
      faults.openFile events filename = some err →
      (loadMessageIDs faults events files filename).1 = MessageIDs.map []) := by
  have hload : ∀ members : List (String × JSON),
      files.get? filename = some (FileData.value (JSON.object members)) →
      faults.openFile events filename = none →
      (loadMessageIDs faults events files filename).1
        = MessageIDs.map (decodeMembers [] members).1 := by
    intro members hfile hopen
    unfold loadMessageIDs
    simp only [hfile, hopen, decode, MessageIDs.entriesOrMake]
  have hobj : ∀ members : List (String × JSON),
      files.get? filename = some (FileData.value (JSON.object members)) →
      faults.openFile events filename = none →
      ∀ k : String, (loadMessageIDs faults events files filename).1.get? k
        = (members.reverse.lookup k).map JSON.text := by
    intro members hfile hopen k
    rw [hload members hfile hopen, MessageIDs.get?_map, decodeMembers_get?]
    cases members.reverse.lookup k <;> rfl
  refine ⟨?_, ?_, ?_, ?_, ?_, ?_⟩
  · intro habsent
    unfold loadMessageIDs
    simp only [habsent]
    constructor
    · cases faults.create events filename with
      | some e => rfl
      | none =>
        cases faults.encode events filename with
        | some r => rfl
        | none => rfl
    · intro hc he
      simp only [hc, he]
      rw [GoMap.get?_set_self]
      rfl
  · intro members hfile hopen
    refine ⟨hobj members hfile hopen, ?_, ?_, ?_⟩
    · rw [hload members hfile hopen]
      exact fun h => MessageIDs.noConfusion h
    · intro hne
      rw [hload members hfile hopen]
      intro h
      injection h with h
      exact decodeMembers_ne_nil members [] hne h
    · simp only [decode, MessageIDs.entriesOrMake]
      exact decodeMembers_snd members []
  · intro kvs hfile hopen k
    rw [hobj _ hfile hopen k, ← List.map_reverse, lookup_map_string]
    cases kvs.reverse.lookup k <;> rfl
  · intro data hfile hnot hnull
    unfold loadMessageIDs
    simp only [hfile]
    cases faults.openFile events filename with
    | some e => rfl
    | none =>
      cases data with
      | malformed => rfl
      | value v =>
        cases v with
        | object members => exact absurd rfl (hnot members)
        | null => exact absurd rfl hnull
        | _ => rfl
  · intro hfile hopen
    refine ⟨rfl, ?_⟩
    unfold loadMessageIDs
    simp only [hfile, hopen, decode]
  · intro data err hfile hopen
    unfold loadMessageIDs
    simp only [hfile, hopen]

/-- C9 on a file system without the file (the map has no entry and the file is created
holding the empty object), on a file that holds `{C1: M1}` (the entry of `C1` is `M1`),
on a file from which no JSON value can be read (the map has no entry), and on a file
that holds `null` (the map is nil). -/
theorem loadMessageIDs_result_witness :
    (GoMap.get? ([] : FileSystem) "messageIDs.json" = none ∧
      (loadMessageIDs exFaults [] [] "messageIDs.json").1 = MessageIDs.map [] ∧
      (loadMessageIDs exFaults [] [] "messageIDs.json").2.get? "messageIDs.json"
        = some (FileData.value (JSON.object []))) ∧
    (loadMessageIDs exFaults []
      [("messageIDs.json", FileData.value (JSON.object [("C1", JSON.string "M1")]))]
      "messageIDs.json").1.get? "C1" = some "M1" ∧
    (loadMessageIDs exFaults [] [("messageIDs.json", FileData.malformed)]
      "messageIDs.json").1 = MessageIDs.map [] ∧
    (loadMessageIDs exFaults [] exNullFile "messageIDs.json").1 = MessageIDs.nil :=
  ⟨⟨rfl, ((loadMessageIDs_result exFaults [] [] "messageIDs.json").1 rfl).1,
      ((loadMessageIDs_result exFaults [] [] "messageIDs.json").1 rfl).2 rfl rfl⟩,
    (loadMessageIDs_result exFaults []
      [("messageIDs.json", FileData.value (JSON.object [("C1", JSON.string "M1")]))]
      "messageIDs.json").2.2.1 [("C1", "M1")] rfl rfl "C1",
    (loadMessageIDs_result exFaults [] [("messageIDs.json", FileData.malformed)]
      "messageIDs.json").2.2.2.1 FileData.malformed rfl (fun _ h => FileData.noConfusion h)
      (fun h => FileData.noConfusion h),
    ((loadMessageIDs_result exFaults [] exNullFile "messageIDs.json").2.2.2.2.1 rfl rfl).2⟩

/-- C9 as stated fails: for a file that holds an object with `a` a string and `b` a
number, `Decode` returns an error, and `loadMessageIDs` returns the map with `a` as in
the file and `b` the empty string, not the map with no entry and not the nil map. -/
theorem loadMessageIDs_keeps_entries_on_type_error :
    (decode (MessageIDs.map [])
      (FileData.value (JSON.object [("a", JSON.string "x"), ("b", JSON.number "5")]))).2
      = some "json: cannot unmarshal number into Go value of type string" ∧
    (loadMessageIDs exFaults [] exMixedFile "messageIDs.json").1
      = MessageIDs.map [("a", "x"), ("b", "")] ∧
    (loadMessageIDs exFaults [] exMixedFile "messageIDs.json").1 ≠ MessageIDs.map [] ∧
    (loadMessageIDs exFaults [] exMixedFile "messageIDs.json").1 ≠ MessageIDs.nil := by
  refine ⟨by rfl, by rfl, by decide, by decide⟩

end Porygon
